import Mathlib

/-!
Verification development for the telecom-platform decision-and-settlement core:
the Wallet Ledger Service (internal/wallet) and the Routing Decision Engine with
its Admin Override layer (internal/routing).

The Go code is shallowly embedded: the relational store (wallets, wallet_ledger,
wallet_balances, admin_wallet_actions tables) becomes an explicit `DBState`
record of lists, SQL queries become list lookups, and each service method
becomes a pure function `DBState → … → Except WErr result` where the returned
state is the committed transaction (an error means the transaction rolled
back, so the caller's state is unchanged).  Go `int64` amounts are modelled as
`Int`, `time.Time` as `Nat` instants, and the injectable clock/uuid/rng inputs
are passed as explicit arguments.
-/

set_option linter.dupNamespace false

namespace Wallet

/-- Wallet row (internal/wallet models, `type Wallet`). -/
structure Wallet where
  id : String
  workspaceID : String
  currency : String
  status : String
deriving DecidableEq, Repr, Inhabited

/-- Ledger entry type (`type LedgerEntryType`). -/
inductive LedgerEntryType where
  | credit
  | debit
  | hold
  | release
deriving DecidableEq, Repr, Inhabited

/-- Immutable ledger entry (`type WalletLedger`).  `amountMinor` is signed:
credits positive, debits negative. -/
structure WalletLedger where
  id : String
  workspaceID : String
  walletID : String
  type : LedgerEntryType
  amountMinor : Int
  currency : String
  externalRef : String
  idempotencyKey : String
  metadata : String
  createdAt : Nat
deriving DecidableEq, Repr, Inhabited

/-- Balance projection row (`type Balance`, table wallet_balances). -/
structure Balance where
  workspaceID : String
  walletID : String
  currency : String
  balanceMinor : Int
  updatedAt : Nat
deriving DecidableEq, Repr, Inhabited

/-- Admin wallet action row (`type AdminWalletAction`). -/
structure AdminWalletAction where
  id : String
  workspaceID : String
  walletID : String
  adminUserID : String
  adminRole : String
  action : String
  reason : String
  amountMinor : Int
  currency : String
  relatedLedgerID : String
  metadata : String
  createdAt : Nat
deriving DecidableEq, Repr, Inhabited

/-- The four tables the wallet repository operates on. -/
structure DBState where
  wallets : List Wallet
  ledger : List WalletLedger
  balances : List Balance
  adminActions : List AdminWalletAction
deriving DecidableEq, Repr, Inhabited

/-- Wallet service error taxonomy (ErrNotFound / ErrInsufficientFunds /
ErrInvalidArgument). -/
inductive WErr where
  | notFound
  | insufficientFunds
  | invalidArgument
deriving DecidableEq, Repr, Inhabited

/-- Key predicate of the wallets table: `WHERE workspace_id = $1 AND id = $2`. -/
def walletKeyMatch (ws wid : String) (w : Wallet) : Bool :=
  w.workspaceID == ws && w.id == wid

/-- `lockWallet` (repository.go): SELECT … FROM wallets WHERE workspace_id AND id
FOR UPDATE; no row means ErrNotFound.  Locking has no observable effect in the
sequential model. -/
def lockWallet (st : DBState) (ws wid : String) : Except WErr Wallet :=
  match st.wallets.find? (walletKeyMatch ws wid) with
  | some w => .ok w
  | none => .error .notFound

/-- Key predicate of wallet_balances: `WHERE workspace_id = $1 AND wallet_id = $2`. -/
def balKeyMatch (ws wid : String) (b : Balance) : Bool :=
  b.workspaceID == ws && b.walletID == wid

/-- `getBalanceTx` (repository.go): SELECT from wallet_balances, ErrNotFound when
absent.  `getBalance` and `getBalanceForUpdate` run the same query (the latter
with FOR UPDATE, irrelevant sequentially). -/
def getBalanceTx (st : DBState) (ws wid : String) : Except WErr Balance :=
  match st.balances.find? (balKeyMatch ws wid) with
  | some b => .ok b
  | none => .error .notFound

/-- `getBalanceForUpdate` (repository.go): same query as `getBalanceTx` plus a
row lock. -/
def getBalanceForUpdate (st : DBState) (ws wid : String) : Except WErr Balance :=
  getBalanceTx st ws wid

/-- Key predicate of wallet_ledger idempotency lookup:
`WHERE workspace_id = $1 AND wallet_id = $2 AND idempotency_key = $3`. -/
def ledgerKeyMatch (ws wid key : String) (e : WalletLedger) : Bool :=
  e.workspaceID == ws && e.walletID == wid && e.idempotencyKey == key

/-- `findLedgerByIdempotency` (repository.go): LIMIT 1 lookup; `none` models the
(entry, false, nil) no-rows result. -/
def findLedgerByIdempotency (st : DBState) (ws wid key : String) : Option WalletLedger :=
  st.ledger.find? (ledgerKeyMatch ws wid key)

/-- `insertLedger` (repository.go): INSERT INTO wallet_ledger. -/
def insertLedger (st : DBState) (e : WalletLedger) : DBState :=
  { st with ledger := st.ledger ++ [e] }

/-- Upsert of the wallet_balances table used by `applyBalanceDelta`:
ON CONFLICT (workspace_id, wallet_id) DO UPDATE SET
balance_minor = balance_minor + delta, updated_at = now — the stored currency is
kept stable on update; a fresh row carries the supplied currency and delta.
Returns the RETURNING row together with the updated table. -/
def upsertBalances (bs : List Balance) (ws wid cur : String) (delta : Int) (now : Nat) :
    Balance × List Balance :=
  match bs with
  | [] =>
    let b : Balance := ⟨ws, wid, cur, delta, now⟩
    (b, [b])
  | x :: rest =>
    if balKeyMatch ws wid x then
      let b : Balance := { x with balanceMinor := x.balanceMinor + delta, updatedAt := now }
      (b, b :: rest)
    else
      let p := upsertBalances rest ws wid cur delta now
      (p.1, x :: p.2)

/-- `applyBalanceDelta` (repository.go): atomic upsert-with-delta on the balance
projection. -/
def applyBalanceDelta (st : DBState) (ws wid cur : String) (delta : Int) (now : Nat) :
    Balance × DBState :=
  let p := upsertBalances st.balances ws wid cur delta now
  (p.1, { st with balances := p.2 })

/-- `insertAdminAction` (repository.go): INSERT INTO admin_wallet_actions. -/
def insertAdminAction (st : DBState) (a : AdminWalletAction) : DBState :=
  { st with adminActions := st.adminActions ++ [a] }

/-- Key predicate of admin_wallet_actions lookup by related ledger id. -/
def adminActionKeyMatch (ws wid lid : String) (a : AdminWalletAction) : Bool :=
  a.workspaceID == ws && a.walletID == wid && a.relatedLedgerID == lid

/-- `findAdminActionByLedger` (repository.go). -/
def findAdminActionByLedger (st : DBState) (ws wid lid : String) : Option AdminWalletAction :=
  st.adminActions.find? (adminActionKeyMatch ws wid lid)

/-- `type CreditRequest`. -/
structure CreditRequest where
  amountMinor : Int
  currency : String
  externalRef : String
  idempotencyKey : String
  metadata : String
deriving DecidableEq, Repr, Inhabited

/-- `type DebitRequest`. -/
structure DebitRequest where
  amountMinor : Int
  currency : String
  externalRef : String
  idempotencyKey : String
  metadata : String
deriving DecidableEq, Repr, Inhabited

/-- `type AdminCreditRequest`. -/
structure AdminCreditRequest where
  amountMinor : Int
  currency : String
  reason : String
  idempotencyKey : String
  metadata : String
deriving DecidableEq, Repr, Inhabited

/-- `validateMoneyReq` (service): empty workspace/wallet/currency/idempotency key
or a zero amount fail fast with ErrInvalidArgument. -/
def validateMoneyReq (ws wid : String) (amountMinor : Int) (currency idempotencyKey : String) :
    Option WErr :=
  if ws = "" ∨ wid = "" then some .invalidArgument
  else if currency = "" then some .invalidArgument
  else if idempotencyKey = "" then some .invalidArgument
  else if amountMinor = 0 then some .invalidArgument
  else none

/-- Result triple (ledger entry, balance, committed state) of
Credit/Debit. -/
structure MoneyResult where
  entry : WalletLedger
  balance : Balance
  state : DBState
deriving DecidableEq, Repr, Inhabited

/-- Result of AdminManualCredit; `action` is `none` when a no-op retry found no
admin action row (Go returns the zero AdminWalletAction there). -/
structure AdminMoneyResult where
  action : Option AdminWalletAction
  entry : WalletLedger
  balance : Balance
  state : DBState
deriving DecidableEq, Repr, Inhabited

/-- Steps 5–6 shared by all three money operations: insert the new ledger entry,
then apply its signed amount to the balance projection.  Every call site passes
a freshly built entry whose workspaceID/walletID/currency/amountMinor equal the
arguments the Go code hands to `insertLedger` and `applyBalanceDelta`. -/
def postLedgerAndDelta (st : DBState) (entry : WalletLedger) (now : Nat) : MoneyResult :=
  let st1 := insertLedger st entry
  let p := applyBalanceDelta st1 entry.workspaceID entry.walletID entry.currency
      entry.amountMinor now
  ⟨entry, p.1, p.2⟩

/-- `Service.Credit` (service).  `now` is the injected clock value, `ledgerID`
the fresh uuid. -/
def Credit (st : DBState) (now : Nat) (ledgerID : String) (ws wid : String)
    (req : CreditRequest) : Except WErr MoneyResult :=
  match validateMoneyReq ws wid req.amountMinor req.currency req.idempotencyKey with
  | some e => .error e
  | none =>
  if req.amountMinor ≤ 0 then .error .invalidArgument
  else
    match lockWallet st ws wid with
    | .error e => .error e
    | .ok w =>
      if w.currency ≠ req.currency then .error .invalidArgument
      else
        match findLedgerByIdempotency st ws wid req.idempotencyKey with
        | some existing =>
          match getBalanceTx st ws wid with
          | .error e => .error e
          | .ok b => .ok ⟨existing, b, st⟩
        | none =>
          .ok (postLedgerAndDelta st
            ⟨ledgerID, ws, wid, .credit, req.amountMinor, req.currency,
             req.externalRef, req.idempotencyKey, req.metadata, now⟩ now)

/-- `Service.Debit` (service). -/
def Debit (st : DBState) (now : Nat) (ledgerID : String) (ws wid : String)
    (req : DebitRequest) : Except WErr MoneyResult :=
  match validateMoneyReq ws wid req.amountMinor req.currency req.idempotencyKey with
  | some e => .error e
  | none =>
  if req.amountMinor ≤ 0 then .error .invalidArgument
  else
    match lockWallet st ws wid with
    | .error e => .error e
    | .ok w =>
      if w.currency ≠ req.currency then .error .invalidArgument
      else
        match findLedgerByIdempotency st ws wid req.idempotencyKey with
        | some existing =>
          match getBalanceTx st ws wid with
          | .error e => .error e
          | .ok b => .ok ⟨existing, b, st⟩
        | none =>
          match getBalanceForUpdate st ws wid with
          | .error e => .error e
          | .ok b =>
            if b.currency ≠ req.currency then .error .invalidArgument
            else if b.balanceMinor < req.amountMinor then .error .insufficientFunds
            else
              .ok (postLedgerAndDelta st
                ⟨ledgerID, ws, wid, .debit, -req.amountMinor, req.currency,
                 req.externalRef, req.idempotencyKey, req.metadata, now⟩ now)

/-- `Service.AdminManualCredit` (service).  `actionID`/`ledgerID` are the fresh
uuids. -/
def AdminManualCredit (st : DBState) (now : Nat) (actionID ledgerID : String)
    (ws wid adminUserID adminRole : String) (req : AdminCreditRequest) :
    Except WErr AdminMoneyResult :=
  if adminUserID = "" ∨ adminRole = "" then .error .invalidArgument
  else if req.reason = "" then .error .invalidArgument
  else
  match validateMoneyReq ws wid req.amountMinor req.currency req.idempotencyKey with
  | some e => .error e
  | none =>
  if req.amountMinor ≤ 0 then .error .invalidArgument
  else
    match lockWallet st ws wid with
    | .error e => .error e
    | .ok w =>
      if w.currency ≠ req.currency then .error .invalidArgument
      else
        match findLedgerByIdempotency st ws wid req.idempotencyKey with
        | some existing =>
          match getBalanceTx st ws wid with
          | .error e => .error e
          | .ok b => .ok ⟨findAdminActionByLedger st ws wid existing.id, existing, b, st⟩
        | none =>
          let r := postLedgerAndDelta st
            ⟨ledgerID, ws, wid, .credit, req.amountMinor, req.currency,
             "admin_manual_credit", req.idempotencyKey, req.metadata, now⟩ now
          let action : AdminWalletAction :=
            ⟨actionID, ws, wid, adminUserID, adminRole, "adjust_balance", req.reason,
             req.amountMinor, req.currency, r.entry.id, req.metadata, now⟩
          .ok ⟨some action, r.entry, r.balance, insertAdminAction r.state action⟩

/-- One money operation together with its injected clock/uuid inputs. -/
inductive WOp where
  | credit (now : Nat) (ledgerID ws wid : String) (req : CreditRequest)
  | debit (now : Nat) (ledgerID ws wid : String) (req : DebitRequest)
  | adminCredit (now : Nat) (actionID ledgerID ws wid adminUserID adminRole : String)
      (req : AdminCreditRequest)

/-- Resulting database state of one operation: the committed state on success,
the unchanged state on any failure (the transaction rolls back). -/
def applyOp (st : DBState) (op : WOp) : DBState :=
  match op with
  | .credit now lid ws wid req =>
    match Credit st now lid ws wid req with
    | .ok r => r.state
    | .error _ => st
  | .debit now lid ws wid req =>
    match Debit st now lid ws wid req with
    | .ok r => r.state
    | .error _ => st
  | .adminCredit now aid lid ws wid au ar req =>
    match AdminManualCredit st now aid lid ws wid au ar req with
    | .ok r => r.state
    | .error _ => st

/-- Database state after a sequence of money operations. -/
def runOps (st : DBState) (ops : List WOp) : DBState :=
  ops.foldl applyOp st

/-- A deployment's initial state: wallets provisioned, empty ledger, no balance
projection rows, no admin actions. -/
def initState (ws : List Wallet) : DBState :=
  ⟨ws, [], [], []⟩

/-- Sum of the signed amount_minor of one wallet's entries in a ledger table. -/
def sumLedger (l : List WalletLedger) (ws wid : String) : Int :=
  ((l.filter (fun e => e.workspaceID == ws && e.walletID == wid)).map
    (·.amountMinor)).sum

/-- Sum of the signed amount_minor of all ledger entries of one wallet. -/
def ledgerSum (st : DBState) (ws wid : String) : Int :=
  sumLedger st.ledger ws wid

/-- balance_minor of the row of one wallet in a balances table, 0 when the row
is absent. -/
def findBal (bs : List Balance) (ws wid : String) : Int :=
  match bs.find? (balKeyMatch ws wid) with
  | some b => b.balanceMinor
  | none => 0

/-- balance_minor of the projection row of one wallet, 0 when the row is
absent. -/
def balanceVal (st : DBState) (ws wid : String) : Int :=
  findBal st.balances ws wid

/-- The money invariant: the balance projection equals the ledger sum. -/
def walletInv (st : DBState) (ws wid : String) : Prop :=
  balanceVal st ws wid = ledgerSum st ws wid

/-- Number of ledger entries carrying one idempotency key. -/
def keyCount (st : DBState) (ws wid key : String) : Nat :=
  (st.ledger.filter (ledgerKeyMatch ws wid key)).length

end Wallet

namespace Routing

/-- Role constants (internal/rbac/roles.go). -/
def RoleSuperAdmin : String := "super_admin"

/-- Hidden network-operator role (internal/rbac/roles.go). -/
def RoleNetworkOperator : String := "network_operator"

/-- `rbac.IsSuperAdmin`. -/
def IsSuperAdmin (role : String) : Bool :=
  role == RoleSuperAdmin

/-- Decision action (`type Action`, internal/routing): reject, connect or
hangup. -/
inductive Action where
  | reject
  | connect
  | hangup
deriving DecidableEq, Repr, Inhabited

/-- `type Decision`: the provider-agnostic output of the routing engine. -/
structure Decision where
  workspaceID : String
  campaignID : String
  action : Action
  connectTo : String
  reason : String
deriving DecidableEq, Repr, Inhabited

/-- `telephony.InboundCallRequest` (the fields the routing core reads). -/
structure InboundCallRequest where
  workspaceID : String
  providerCallID : String
  from_ : String
  to_ : String
  occurredAt : Nat
  rawPayload : String
deriving DecidableEq, Repr, Inhabited

/-- `telephony.InboundCallAction`. -/
inductive InboundCallAction where
  | reject
  | connect
  | hangup
deriving DecidableEq, Repr, Inhabited

/-- `telephony.InboundCallResult` (fields set by the routing engine adapter). -/
structure InboundCallResult where
  workspaceID : String
  callID : String
  action : InboundCallAction
  connectTo : String
deriving DecidableEq, Repr, Inhabited

/-- `type Override`: a silent, expiry-bounded forced-routing rule. -/
structure Override where
  workspaceID : String
  campaignID : String
  overrideID : String
  connectTo : String
  expiresAt : Nat
  metadata : String
deriving DecidableEq, Repr, Inhabited

/-- `type OverrideAuditEvent`: the internal-only audit record of an applied
override. -/
structure OverrideAuditEvent where
  workspaceID : String
  campaignID : String
  overrideID : String
  providerCallID : String
  from_ : String
  to_ : String
  ipAddress : String
  connectTo : String
  appliedAt : Nat
  expiresAt : Nat
  metadata : String
deriving DecidableEq, Repr, Inhabited

/-- `OverrideStore.GetActiveOverride` as a pure oracle: arguments are
(workspace, campaign, request, now); `ok none` models (Override{}, false, nil),
`ok (some o)` models (o, true, nil). -/
def OverrideStore : Type :=
  String → String → InboundCallRequest → Nat → Except String (Option Override)

/-- `AdminOverrideEngine`: the optional store (nil modelled as `none`), whether
an audit logger was injected (`e.Audit != nil`), and the instant the injected
clock returns. -/
structure AdminOverrideEngine where
  store : Option OverrideStore
  auditConfigured : Bool
  now : Nat

/-- `AdminOverrideEngine.Decide`.  The result carries the applied decision (or
`none` when no override applies) together with the list of audit events emitted
by this call; audit-sink failures are swallowed in Go, so the event is emitted
whenever a logger is configured. -/
def Decide (e : AdminOverrideEngine) (clientIP ws camp : String)
    (req : InboundCallRequest) :
    Except String (Option Decision × List OverrideAuditEvent) :=
  if ws = "" then .error "routing: workspace_id required"
  else
    match e.store with
    | none => .ok (none, [])
    | some store =>
      match store ws camp req e.now with
      | .error msg => .error msg
      | .ok none => .ok (none, [])
      | .ok (some o) =>
        if ¬ e.now < o.expiresAt then .ok (none, [])
        else if o.connectTo = "" then .error "routing: override connect_to empty"
        else
          .ok (some ⟨ws, camp, .connect, o.connectTo, ""⟩,
            if e.auditConfigured then
              [⟨ws, camp, o.overrideID, req.providerCallID, req.from_, req.to_,
                clientIP, o.connectTo, e.now, o.expiresAt, o.metadata⟩]
            else [])

/-- `type WeightedDestination`. -/
structure WeightedDestination where
  targetURI : String
  weight : Int
deriving DecidableEq, Repr, Inhabited

/-- `type CampaignEvaluation`. -/
structure CampaignEvaluation where
  allowed : Bool
  reason : String
  destinations : List WeightedDestination
deriving DecidableEq, Repr, Inhabited

/-- `CampaignService.EvaluateInbound` as a pure oracle. -/
def CampaignService : Type :=
  String → String → InboundCallRequest → Except String CampaignEvaluation

/-- `wallet.BalanceService.GetBalance` as a pure oracle (the routing engine only
reads balances through this interface). -/
def BalanceService : Type :=
  String → String → Except String Wallet.Balance

/-- `type RouteInput`. -/
structure RouteInput where
  workspaceID : String
  campaignID : String
  actorRole : String
  walletID : String
  estimatedMinor : Int
  currency : String
  inbound : InboundCallRequest

/-- `RoutingEngine`: optional override engine, optional wallet and campaign
collaborators, and the injected random source.  `intn n` models
`RNG.Intn(n)`; Go guarantees the drawn value lies in `[0, n)`, which theorems
carry as an explicit hypothesis. -/
structure RoutingEngine where
  overrides : Option AdminOverrideEngine
  wallet : Option BalanceService
  campaigns : Option CampaignService
  intn : Nat → Nat

/-- Loop `total += d.Weight` of `pickDestination`, skipping non-positive
weights. -/
def sumPosWeights (dests : List WeightedDestination) : Int :=
  dests.foldl (fun acc d => if d.weight ≤ 0 then acc else acc + d.weight) 0

/-- Accumulating walk of `pickDestination`: skip non-positive weights and
return the first destination with `r < acc + weight`. -/
def pickWalk : List WeightedDestination → Int → Int → Option String
  | [], _, _ => none
  | d :: rest, r, acc =>
    if d.weight ≤ 0 then pickWalk rest r acc
    else if r < acc + d.weight then some d.targetURI
    else pickWalk rest r (acc + d.weight)

/-- `RoutingEngine.pickDestination`: `none` models the ("", false) result. -/
def pickDestination (intn : Nat → Nat) (dests : List WeightedDestination) :
    Option String :=
  let total := sumPosWeights dests
  if total ≤ 0 then none
  else pickWalk dests ((intn total.toNat : Nat) : Int) 0

/-- Destination lookup of the privileged-role bypass in `Route`: evaluate the
campaign when a campaign id and service exist, and pick a destination; any
evaluation error or empty pick falls through to `none`. -/
def bypassPick (e : RoutingEngine) (input : RouteInput) : Option String :=
  if input.campaignID = "" then none
  else
    match e.campaigns with
    | none => none
    | some cs =>
      match cs input.workspaceID input.campaignID input.inbound with
      | .error _ => none
      | .ok ev => pickDestination e.intn ev.destinations

/-- Stages 3–4 of `Route` (campaign requirement, campaign evaluation, weighted
destination selection). -/
def routeCampaignStage (e : RoutingEngine) (input : RouteInput) :
    Except String Decision :=
  if input.campaignID = "" then
    .ok ⟨input.workspaceID, "", .reject, "", "campaign_id_required"⟩
  else
    match e.campaigns with
    | none => .error "routing: campaign service not configured"
    | some cs =>
      match cs input.workspaceID input.campaignID input.inbound with
      | .error msg => .error msg
      | .ok ev =>
        if !ev.allowed then
          .ok ⟨input.workspaceID, input.campaignID, .reject, "",
            if ev.reason = "" then "campaign_blocked" else ev.reason⟩
        else
          match pickDestination e.intn ev.destinations with
          | some dest =>
            .ok ⟨input.workspaceID, input.campaignID, .connect, dest, "selected"⟩
          | none =>
            .ok ⟨input.workspaceID, input.campaignID, .reject, "",
              "no_eligible_destination"⟩

/-- Stage 2 of `Route` (wallet balance gate), falling through to the campaign
stages. -/
def routeBalanceGate (e : RoutingEngine) (input : RouteInput) :
    Except String Decision :=
  if 0 < input.estimatedMinor then
    match e.wallet with
    | none => .error "routing: wallet service not configured"
    | some w =>
      if input.walletID = "" then
        .error "routing: wallet_id required when estimated cost is provided"
      else if input.currency = "" then
        .error "routing: currency required when estimated cost is provided"
      else
        match w input.workspaceID input.walletID with
        | .error msg => .error msg
        | .ok bal =>
          if bal.currency ≠ input.currency then
            .ok ⟨input.workspaceID, input.campaignID, .reject, "",
              "wallet_currency_mismatch"⟩
          else if bal.balanceMinor < input.estimatedMinor then
            .ok ⟨input.workspaceID, input.campaignID, .reject, "",
              "insufficient_balance"⟩
          else routeCampaignStage e input
  else routeCampaignStage e input

/-- Stages 1–4 of `Route` (everything after the override check): privileged-role
bypass, balance gate, campaign stages. -/
def routeStages (e : RoutingEngine) (input : RouteInput) : Except String Decision :=
  if IsSuperAdmin input.actorRole || input.actorRole == RoleNetworkOperator then
    match bypassPick e input with
    | some dest =>
      .ok ⟨input.workspaceID, input.campaignID, .connect, dest, "admin_override"⟩
    | none =>
      .ok ⟨input.workspaceID, input.campaignID, .reject, "",
        "admin_override_no_destination"⟩
  else routeBalanceGate e input

/-- `RoutingEngine.Route`.  The result pairs the decision with the audit events
emitted by the call (only the override engine emits events). -/
def Route (e : RoutingEngine) (clientIP : String) (input : RouteInput) :
    Except String (Decision × List OverrideAuditEvent) :=
  if input.workspaceID = "" then .error "routing: workspace_id required"
  else
    match e.overrides with
    | some ov =>
      match Decide ov clientIP input.workspaceID input.campaignID input.inbound with
      | .error msg => .error msg
      | .ok (some d, evs) => .ok (d, evs)
      | .ok (none, _) =>
        match routeStages e input with
        | .error msg => .error msg
        | .ok d => .ok (d, [])
    | none =>
      match routeStages e input with
      | .error msg => .error msg
      | .ok d => .ok (d, [])

/-- Rendering of a Decision into the provider-facing InboundCallResult,
modelling the switch in `engineAdapter.RouteInboundCall` (internal/routing/
engine.go): the workspace id and, for connect, the target are kept; the reason
is dropped. -/
def renderDecision (d : Decision) : InboundCallResult :=
  match d.action with
  | .reject => ⟨d.workspaceID, "", .reject, ""⟩
  | .hangup => ⟨d.workspaceID, "", .hangup, ""⟩
  | .connect => ⟨d.workspaceID, "", .connect, d.connectTo⟩

/-- Subtractive index-level reading of the selection walk: `selIdx dests r`
is the index (into the full list, in declaration order) of the destination
`pickWalk` stops at after drawing `r`. -/
def selIdx : List WeightedDestination → Int → Option Nat
  | [], _ => none
  | d :: rest, r =>
    if d.weight ≤ 0 then (selIdx rest r).map (· + 1)
    else if r < d.weight then some 0
    else (selIdx rest (r - d.weight)).map (· + 1)

/-- Cumulative weight of the positive-weight destinations among the first `i`
destinations — the spec's "walk destinations accumulating weight" bound. -/
def cumPos (dests : List WeightedDestination) (i : Nat) : Int :=
  (((dests.take i).filter (fun d => 0 < d.weight)).map (·.weight)).sum

end Routing


namespace Wallet

/-- Concrete deployment fixture: one provisioned USD wallet, empty tables. -/
def wFix : Wallet := ⟨"w1", "ws", "USD", "active"⟩

/-- Initial concrete state for the witnesses. -/
def stFix : DBState := ⟨[wFix], [], [], []⟩

/-- Concrete credit request. -/
def creditReqFix : CreditRequest := ⟨100, "USD", "", "k1", ""⟩

/-- Result of the concrete first credit. -/
def creditResFix : MoneyResult :=
  ((Credit stFix 1 "L1" "ws" "w1" creditReqFix).toOption).getD default

/-- Concrete debit request. -/
def debitReqFix : DebitRequest := ⟨40, "USD", "", "k2", ""⟩

/-- Result of the concrete first debit. -/
def debitResFix : MoneyResult :=
  ((Debit creditResFix.state 2 "L2" "ws" "w1" debitReqFix).toOption).getD default

/-- Concrete admin credit request. -/
def adminReqFix : AdminCreditRequest := ⟨7, "USD", "promo", "k3", ""⟩

/-- Result of the concrete first admin credit. -/
def adminResFix : AdminMoneyResult :=
  ((AdminManualCredit debitResFix.state 3 "A1" "L3" "ws" "w1" "adm" "super_admin"
    adminReqFix).toOption).getD default

end Wallet

namespace Routing

/-- Non-privileged, no-applied-override side condition of the balance gate: the
acting role is neither super_admin nor the hidden network operator, and either
no override engine is wired or its Decide reports no applicable override. -/
def NoBypass (e : RoutingEngine) (ip : String) (inp : RouteInput) : Prop :=
  (IsSuperAdmin inp.actorRole || inp.actorRole == RoleNetworkOperator) = false ∧
  (e.overrides = none ∨ ∃ ov, e.overrides = some ov ∧
    Decide ov ip inp.workspaceID inp.campaignID inp.inbound = .ok (none, []))

/-- Concrete unexpired override fixture. -/
def ovFix : Override := ⟨"w", "c", "ov1", "sip:x", 20, ""⟩

/-- Override engine whose store always returns the unexpired fixture; audit
logger configured; clock at 10. -/
def ovEngineFix : AdminOverrideEngine :=
  ⟨some (fun _ _ _ _ => .ok (some ovFix)), true, 10⟩

/-- Override engine whose store returns an override already expired at 5. -/
def ovExpiredFix : AdminOverrideEngine :=
  ⟨some (fun _ _ _ _ => .ok (some ⟨"w", "c", "ov2", "sip:y", 5, ""⟩)), true, 10⟩

/-- Store reporting no override. -/
def storeNoneFix : OverrideStore := fun _ _ _ _ => .ok none

/-- Concrete inbound request fixture. -/
def inboundFix : InboundCallRequest := ⟨"w", "pc", "+1", "+2", 0, ""⟩

/-- Routing engine with only the override fixture wired. -/
def routeEngineFix : RoutingEngine := ⟨some ovEngineFix, none, none, fun _ => 0⟩

/-- Route input fixture for the override runs. -/
def routeInputFix : RouteInput := ⟨"w", "c", "", "", 0, "", inboundFix⟩

/-- The Decision the override fixture produces. -/
def decFix : Decision := ⟨"w", "c", .connect, "sip:x", ""⟩

/-- The audit event the override fixture emits. -/
def evFix : OverrideAuditEvent :=
  ⟨"w", "c", "ov1", "pc", "+1", "+2", "ip", "sip:x", 10, 20, ""⟩

end Routing

namespace Routing

/-- Destination list with no positive weight. -/
def destsAllNegFix : List WeightedDestination := [⟨"a", -1⟩, ⟨"b", 0⟩]

/-- Destination list with weights 1 and 3. -/
def destsABFix : List WeightedDestination := [⟨"a", 1⟩, ⟨"b", 3⟩]

/-- Destination list with exactly one positive-weight destination. -/
def destsSingleFix : List WeightedDestination := [⟨"x", -5⟩, ⟨"y", 2⟩]

end Routing

namespace Wallet

theorem upsertBalances_find_self (bs : List Balance) (ws wid cur : String) (delta : Int)
    (now : Nat) :
    (upsertBalances bs ws wid cur delta now).2.find? (balKeyMatch ws wid) =
      some (upsertBalances bs ws wid cur delta now).1 := by
  induction bs with
  | nil => simp [upsertBalances, List.find?, balKeyMatch]
  | cons x rest ih =>
    by_cases h : balKeyMatch ws wid x
    · simp only [upsertBalances, if_pos h]
      rw [List.find?_cons_of_pos _ (by simpa [balKeyMatch] using h)]
    · simp only [upsertBalances, if_neg h]
      rw [List.find?_cons_of_neg _ h]
      exact ih

theorem upsertBalances_fst_balance (bs : List Balance) (ws wid cur : String) (delta : Int)
    (now : Nat) :
    (upsertBalances bs ws wid cur delta now).1.balanceMinor = findBal bs ws wid + delta := by
  induction bs with
  | nil => simp [upsertBalances, findBal, List.find?]
  | cons x rest ih =>
    by_cases h : balKeyMatch ws wid x
    · simp only [upsertBalances, if_pos h, findBal]
      rw [List.find?_cons_of_pos _ h]
    · simp only [upsertBalances, if_neg h, findBal]
      rw [List.find?_cons_of_neg _ h]
      exact ih

theorem upsertBalances_findBal_self (bs : List Balance) (ws wid cur : String) (delta : Int)
    (now : Nat) :
    findBal (upsertBalances bs ws wid cur delta now).2 ws wid = findBal bs ws wid + delta := by
  unfold findBal
  rw [upsertBalances_find_self]
  simpa [findBal] using upsertBalances_fst_balance bs ws wid cur delta now

theorem upsertBalances_findBal_other (bs : List Balance) (ws wid cur : String) (delta : Int)
    (now : Nat) (a b : String) (hne : ¬(a = ws ∧ b = wid)) :
    findBal (upsertBalances bs ws wid cur delta now).2 a b = findBal bs a b := by
  induction bs with
  | nil =>
    have hkey : balKeyMatch a b (⟨ws, wid, cur, delta, now⟩ : Balance) = false := by
      simp only [balKeyMatch]
      by_contra hcon
      simp only [Bool.not_eq_false, Bool.and_eq_true, beq_iff_eq] at hcon
      exact hne ⟨hcon.1.symm, hcon.2.symm⟩
    simp [upsertBalances, findBal, List.find?, hkey]
  | cons x rest ih =>
    by_cases h : balKeyMatch ws wid x
    · have hxs : x.workspaceID = ws ∧ x.walletID = wid := by
        simpa [balKeyMatch] using h
      have hx : balKeyMatch a b x = false := by
        simp only [balKeyMatch]
        by_contra hcon
        simp only [Bool.not_eq_false, Bool.and_eq_true, beq_iff_eq] at hcon
        exact hne ⟨by rw [← hcon.1, hxs.1], by rw [← hcon.2, hxs.2]⟩
      have hx' : balKeyMatch a b
          ({ x with balanceMinor := x.balanceMinor + delta, updatedAt := now } : Balance)
          = false := by
        simpa [balKeyMatch] using hx
      simp only [upsertBalances, if_pos h, findBal]
      rw [List.find?_cons_of_neg _ (by simp [hx']), List.find?_cons_of_neg _ (by simp [hx])]
    · simp only [upsertBalances, if_neg h, findBal]
      by_cases hx : balKeyMatch a b x
      · rw [List.find?_cons_of_pos _ hx, List.find?_cons_of_pos _ hx]
      · rw [List.find?_cons_of_neg _ hx, List.find?_cons_of_neg _ hx]
        exact ih

theorem sumLedger_append_single (l : List WalletLedger) (e : WalletLedger) (a b : String) :
    sumLedger (l ++ [e]) a b =
      sumLedger l a b + (if e.workspaceID = a ∧ e.walletID = b then e.amountMinor else 0) := by
  by_cases h : e.workspaceID = a ∧ e.walletID = b
  · simp [sumLedger, List.filter_append, h.1, h.2, h]
  · have hb : (e.workspaceID == a && e.walletID == b) = false := by
      by_contra hcon
      simp only [Bool.not_eq_false, Bool.and_eq_true, beq_iff_eq] at hcon
      exact h hcon
    simp [sumLedger, List.filter_append, hb, h]

theorem postLedgerAndDelta_balances (st : DBState) (e : WalletLedger) (now : Nat) :
    (postLedgerAndDelta st e now).state.balances =
      (upsertBalances st.balances e.workspaceID e.walletID e.currency e.amountMinor now).2 :=
  rfl

theorem postLedgerAndDelta_ledger (st : DBState) (e : WalletLedger) (now : Nat) :
    (postLedgerAndDelta st e now).state.ledger = st.ledger ++ [e] :=
  rfl

theorem walletInv_post (st : DBState) (e : WalletLedger) (now : Nat)
    (h : ∀ a b, walletInv st a b) (a b : String) :
    walletInv (postLedgerAndDelta st e now).state a b := by
  unfold walletInv balanceVal ledgerSum
  rw [postLedgerAndDelta_balances, postLedgerAndDelta_ledger, sumLedger_append_single]
  by_cases hk : a = e.workspaceID ∧ b = e.walletID
  · rw [hk.1, hk.2, upsertBalances_findBal_self]
    have hi := h e.workspaceID e.walletID
    unfold walletInv balanceVal ledgerSum at hi
    rw [hi]
    simp [hk.1, hk.2]
  · rw [upsertBalances_findBal_other _ _ _ _ _ _ _ _ hk]
    have hi := h a b
    unfold walletInv balanceVal ledgerSum at hi
    rw [hi]
    have hne : ¬(e.workspaceID = a ∧ e.walletID = b) := by
      intro hc
      exact hk ⟨hc.1.symm, hc.2.symm⟩
    simp [hne]

theorem Credit_state_shape (st : DBState) (now : Nat) (lid ws wid : String)
    (req : CreditRequest) (r : MoneyResult) (h : Credit st now lid ws wid req = .ok r) :
    r.state = st ∨ ∃ e : WalletLedger, r.state = (postLedgerAndDelta st e now).state := by
  unfold Credit at h
  split at h
  · exact absurd h (by simp)
  split at h
  · exact absurd h (by simp)
  split at h
  · exact absurd h (by simp)
  split at h
  · exact absurd h (by simp)
  split at h
  · split at h
    · exact absurd h (by simp)
    · left
      cases h
      rfl
  · right
    cases h
    exact ⟨_, rfl⟩

theorem Debit_state_shape (st : DBState) (now : Nat) (lid ws wid : String)
    (req : DebitRequest) (r : MoneyResult) (h : Debit st now lid ws wid req = .ok r) :
    r.state = st ∨ ∃ e : WalletLedger, r.state = (postLedgerAndDelta st e now).state := by
  unfold Debit at h
  split at h
  · exact absurd h (by simp)
  split at h
  · exact absurd h (by simp)
  split at h
  · exact absurd h (by simp)
  split at h
  · exact absurd h (by simp)
  split at h
  · split at h
    · exact absurd h (by simp)
    · left
      cases h
      rfl
  · split at h
    · exact absurd h (by simp)
    split at h
    · exact absurd h (by simp)
    split at h
    · exact absurd h (by simp)
    right
    cases h
    exact ⟨_, rfl⟩

theorem AdminManualCredit_state_shape (st : DBState) (now : Nat) (aid lid ws wid au ar : String)
    (req : AdminCreditRequest) (r : AdminMoneyResult)
    (h : AdminManualCredit st now aid lid ws wid au ar req = .ok r) :
    r.state = st ∨ ∃ (e : WalletLedger) (a : AdminWalletAction),
      r.state = insertAdminAction (postLedgerAndDelta st e now).state a := by
  unfold AdminManualCredit at h
  split at h
  · exact absurd h (by simp)
  split at h
  · exact absurd h (by simp)
  split at h
  · exact absurd h (by simp)
  split at h
  · exact absurd h (by simp)
  split at h
  · exact absurd h (by simp)
  split at h
  · exact absurd h (by simp)
  split at h
  · split at h
    · exact absurd h (by simp)
    · left
      cases h
      rfl
  · right
    cases h
    exact ⟨_, _, rfl⟩

theorem walletInv_insertAdminAction (st : DBState) (a : AdminWalletAction) (x y : String) :
    walletInv (insertAdminAction st a) x y ↔ walletInv st x y := Iff.rfl

theorem applyOp_preserves (st : DBState) (op : WOp) (h : ∀ a b, walletInv st a b) :
    ∀ a b, walletInv (applyOp st op) a b := by
  intro a b
  cases op with
  | credit now lid ws wid req =>
    simp only [applyOp]
    split
    · next r hr =>
      rcases Credit_state_shape st now lid ws wid req r hr with h1 | ⟨e, h1⟩
      · rw [h1]; exact h a b
      · rw [h1]; exact walletInv_post st e now h a b
    · exact h a b
  | debit now lid ws wid req =>
    simp only [applyOp]
    split
    · next r hr =>
      rcases Debit_state_shape st now lid ws wid req r hr with h1 | ⟨e, h1⟩
      · rw [h1]; exact h a b
      · rw [h1]; exact walletInv_post st e now h a b
    · exact h a b
  | adminCredit now aid lid ws wid au ar req =>
    simp only [applyOp]
    split
    · next r hr =>
      rcases AdminManualCredit_state_shape st now aid lid ws wid au ar req r hr with
        h1 | ⟨e, act, h1⟩
      · rw [h1]; exact h a b
      · rw [h1]
        exact (walletInv_insertAdminAction _ _ _ _).mpr (walletInv_post st e now h a b)
    · exact h a b

theorem runOps_preserves (ops : List WOp) (st : DBState) (h : ∀ a b, walletInv st a b) :
    ∀ a b, walletInv (runOps st ops) a b := by
  induction ops generalizing st with
  | nil => exact h
  | cons op ops ih =>
    simp only [runOps, List.foldl_cons]
    exact ih (applyOp st op) (applyOp_preserves st op h)

theorem walletInv_initState (wallets : List Wallet) (a b : String) :
    walletInv (initState wallets) a b := by
  simp [walletInv, initState, balanceVal, findBal, ledgerSum, sumLedger, List.find?]

/-- C1: starting from an empty ledger and an absent balance projection, after
any sequence of (successful) Credit / Debit / AdminCredit operations the
balance projection's balance_minor of every (workspace, wallet) equals the sum
of the signed amount_minor of all ledger entries written for that wallet. -/
theorem balance_matches_ledger_sum (wallets : List Wallet) (ops : List WOp)
    (ws wid : String) :
    walletInv (runOps (initState wallets) ops) ws wid :=
  runOps_preserves ops (initState wallets) (walletInv_initState wallets) ws wid

end Wallet

namespace Wallet

theorem postLedgerAndDelta_wallets (st : DBState) (e : WalletLedger) (now : Nat) :
    (postLedgerAndDelta st e now).state.wallets = st.wallets := rfl

theorem postLedgerAndDelta_entry (st : DBState) (e : WalletLedger) (now : Nat) :
    (postLedgerAndDelta st e now).entry = e := rfl

theorem lockWallet_post (st : DBState) (e : WalletLedger) (now : Nat) (ws wid : String) :
    lockWallet (postLedgerAndDelta st e now).state ws wid = lockWallet st ws wid := rfl

theorem getBalanceTx_post (st : DBState) (e : WalletLedger) (now : Nat) :
    getBalanceTx (postLedgerAndDelta st e now).state e.workspaceID e.walletID =
      .ok (postLedgerAndDelta st e now).balance := by
  unfold getBalanceTx
  rw [postLedgerAndDelta_balances, upsertBalances_find_self]
  rfl

theorem findLedger_post_self (st : DBState) (e : WalletLedger) (now : Nat)
    (hfresh : findLedgerByIdempotency st e.workspaceID e.walletID e.idempotencyKey = none) :
    findLedgerByIdempotency (postLedgerAndDelta st e now).state e.workspaceID e.walletID
      e.idempotencyKey = some e := by
  unfold findLedgerByIdempotency at hfresh ⊢
  rw [postLedgerAndDelta_ledger, List.find?_append, hfresh]
  simp [ledgerKeyMatch]

theorem keyCount_post (st : DBState) (e : WalletLedger) (now : Nat)
    (hfresh : findLedgerByIdempotency st e.workspaceID e.walletID e.idempotencyKey = none) :
    keyCount (postLedgerAndDelta st e now).state e.workspaceID e.walletID
      e.idempotencyKey = 1 := by
  unfold keyCount
  rw [postLedgerAndDelta_ledger, List.filter_append]
  have h1 : st.ledger.filter (ledgerKeyMatch e.workspaceID e.walletID e.idempotencyKey) = [] := by
    rw [List.filter_eq_nil_iff]
    intro a ha
    exact List.find?_eq_none.mp hfresh a ha
  rw [h1]
  simp [ledgerKeyMatch]

theorem Credit_fresh (st : DBState) (now : Nat) (lid ws wid : String) (req : CreditRequest)
    (w : Wallet)
    (hv : validateMoneyReq ws wid req.amountMinor req.currency req.idempotencyKey = none)
    (ha : ¬ req.amountMinor ≤ 0)
    (hw : lockWallet st ws wid = .ok w)
    (hc : w.currency = req.currency)
    (hf : findLedgerByIdempotency st ws wid req.idempotencyKey = none) :
    Credit st now lid ws wid req =
      .ok (postLedgerAndDelta st
        ⟨lid, ws, wid, .credit, req.amountMinor, req.currency, req.externalRef,
         req.idempotencyKey, req.metadata, now⟩ now) := by
  simp [Credit, hv, ha, hw, hc, hf]

theorem Credit_retry (st : DBState) (now : Nat) (lid ws wid : String) (req : CreditRequest)
    (w : Wallet) (existing : WalletLedger) (b : Balance)
    (hv : validateMoneyReq ws wid req.amountMinor req.currency req.idempotencyKey = none)
    (ha : ¬ req.amountMinor ≤ 0)
    (hw : lockWallet st ws wid = .ok w)
    (hc : w.currency = req.currency)
    (hf : findLedgerByIdempotency st ws wid req.idempotencyKey = some existing)
    (hb : getBalanceTx st ws wid = .ok b) :
    Credit st now lid ws wid req = .ok ⟨existing, b, st⟩ := by
  simp [Credit, hv, ha, hw, hc, hf, hb]

theorem Debit_fresh (st : DBState) (now : Nat) (lid ws wid : String) (req : DebitRequest)
    (w : Wallet) (pb : Balance)
    (hv : validateMoneyReq ws wid req.amountMinor req.currency req.idempotencyKey = none)
    (ha : ¬ req.amountMinor ≤ 0)
    (hw : lockWallet st ws wid = .ok w)
    (hc : w.currency = req.currency)
    (hf : findLedgerByIdempotency st ws wid req.idempotencyKey = none)
    (hbu : getBalanceForUpdate st ws wid = .ok pb)
    (hbc : pb.currency = req.currency)
    (hlt : ¬ pb.balanceMinor < req.amountMinor) :
    Debit st now lid ws wid req =
      .ok (postLedgerAndDelta st
        ⟨lid, ws, wid, .debit, -req.amountMinor, req.currency, req.externalRef,
         req.idempotencyKey, req.metadata, now⟩ now) := by
  simp [Debit, hv, ha, hw, hc, hf, hbu, hbc, hlt]

theorem Debit_retry (st : DBState) (now : Nat) (lid ws wid : String) (req : DebitRequest)
    (w : Wallet) (existing : WalletLedger) (b : Balance)
    (hv : validateMoneyReq ws wid req.amountMinor req.currency req.idempotencyKey = none)
    (ha : ¬ req.amountMinor ≤ 0)
    (hw : lockWallet st ws wid = .ok w)
    (hc : w.currency = req.currency)
    (hf : findLedgerByIdempotency st ws wid req.idempotencyKey = some existing)
    (hb : getBalanceTx st ws wid = .ok b) :
    Debit st now lid ws wid req = .ok ⟨existing, b, st⟩ := by
  simp [Debit, hv, ha, hw, hc, hf, hb]

theorem AdminManualCredit_fresh (st : DBState) (now : Nat) (aid lid ws wid au ar : String)
    (req : AdminCreditRequest) (w : Wallet)
    (hau : ¬(au = "" ∨ ar = ""))
    (hre : ¬ req.reason = "")
    (hv : validateMoneyReq ws wid req.amountMinor req.currency req.idempotencyKey = none)
    (ha : ¬ req.amountMinor ≤ 0)
    (hw : lockWallet st ws wid = .ok w)
    (hc : w.currency = req.currency)
    (hf : findLedgerByIdempotency st ws wid req.idempotencyKey = none) :
    AdminManualCredit st now aid lid ws wid au ar req =
      .ok ⟨some ⟨aid, ws, wid, au, ar, "adjust_balance", req.reason, req.amountMinor,
             req.currency, lid, req.metadata, now⟩,
           (postLedgerAndDelta st
             ⟨lid, ws, wid, .credit, req.amountMinor, req.currency, "admin_manual_credit",
              req.idempotencyKey, req.metadata, now⟩ now).entry,
           (postLedgerAndDelta st
             ⟨lid, ws, wid, .credit, req.amountMinor, req.currency, "admin_manual_credit",
              req.idempotencyKey, req.metadata, now⟩ now).balance,
           insertAdminAction
             (postLedgerAndDelta st
               ⟨lid, ws, wid, .credit, req.amountMinor, req.currency, "admin_manual_credit",
                req.idempotencyKey, req.metadata, now⟩ now).state
             ⟨aid, ws, wid, au, ar, "adjust_balance", req.reason, req.amountMinor,
              req.currency, lid, req.metadata, now⟩⟩ := by
  simp [AdminManualCredit, hau, hre, hv, ha, hw, hc, hf, postLedgerAndDelta]

theorem AdminManualCredit_retry (st : DBState) (now : Nat) (aid lid ws wid au ar : String)
    (req : AdminCreditRequest) (w : Wallet) (existing : WalletLedger) (b : Balance)
    (hau : ¬(au = "" ∨ ar = ""))
    (hre : ¬ req.reason = "")
    (hv : validateMoneyReq ws wid req.amountMinor req.currency req.idempotencyKey = none)
    (ha : ¬ req.amountMinor ≤ 0)
    (hw : lockWallet st ws wid = .ok w)
    (hc : w.currency = req.currency)
    (hf : findLedgerByIdempotency st ws wid req.idempotencyKey = some existing)
    (hb : getBalanceTx st ws wid = .ok b) :
    AdminManualCredit st now aid lid ws wid au ar req =
      .ok ⟨findAdminActionByLedger st ws wid existing.id, existing, b, st⟩ := by
  simp [AdminManualCredit, hau, hre, hv, ha, hw, hc, hf, hb]

end Wallet

namespace Wallet

/-- C2: for each of Credit, Debit and AdminCredit, invoking the operation twice
with the same (workspace id, wallet id, idempotency key) — here: with the same
request, starting from a state with no entry for that key — leaves exactly one
ledger entry for that key; the second invocation writes nothing (the returned
state is the first invocation's state, unchanged) and returns the existing
ledger entry and the same balance as the first invocation. -/
theorem money_ops_idempotent :
    (∀ (st : DBState) (now1 now2 : Nat) (lid1 lid2 ws wid : String) (req : CreditRequest)
      (r : MoneyResult),
      findLedgerByIdempotency st ws wid req.idempotencyKey = none →
      Credit st now1 lid1 ws wid req = .ok r →
      keyCount r.state ws wid req.idempotencyKey = 1 ∧
      Credit r.state now2 lid2 ws wid req = .ok r) ∧
    (∀ (st : DBState) (now1 now2 : Nat) (lid1 lid2 ws wid : String) (req : DebitRequest)
      (r : MoneyResult),
      findLedgerByIdempotency st ws wid req.idempotencyKey = none →
      Debit st now1 lid1 ws wid req = .ok r →
      keyCount r.state ws wid req.idempotencyKey = 1 ∧
      Debit r.state now2 lid2 ws wid req = .ok r) ∧
    (∀ (st : DBState) (now1 now2 : Nat) (aid1 lid1 aid2 lid2 ws wid au ar : String)
      (req : AdminCreditRequest) (r : AdminMoneyResult),
      findLedgerByIdempotency st ws wid req.idempotencyKey = none →
      AdminManualCredit st now1 aid1 lid1 ws wid au ar req = .ok r →
      keyCount r.state ws wid req.idempotencyKey = 1 ∧
      ∃ act, AdminManualCredit r.state now2 aid2 lid2 ws wid au ar req =
        .ok ⟨act, r.entry, r.balance, r.state⟩) := by
  refine ⟨?_, ?_, ?_⟩
  · intro st now1 now2 lid1 lid2 ws wid req r hfresh h
    have hv : validateMoneyReq ws wid req.amountMinor req.currency req.idempotencyKey
        = none := by
      rcases hval : validateMoneyReq ws wid req.amountMinor req.currency req.idempotencyKey
        with _ | e
      · rfl
      · exact absurd h (by simp [Credit, hval])
    have ha : ¬ req.amountMinor ≤ 0 := by
      intro ha
      exact absurd h (by simp [Credit, hv, ha])
    obtain ⟨w, hw⟩ : ∃ w, lockWallet st ws wid = .ok w := by
      rcases hl : lockWallet st ws wid with e | w
      · exact absurd h (by simp [Credit, hv, ha, hl])
      · exact ⟨w, rfl⟩
    have hc : w.currency = req.currency := by
      by_contra hc
      exact absurd h (by simp [Credit, hv, ha, hw, hc])
    rw [Credit_fresh st now1 lid1 ws wid req w hv ha hw hc hfresh] at h
    have hr := (Except.ok.inj h).symm
    subst hr
    constructor
    · exact keyCount_post st ⟨lid1, ws, wid, .credit, req.amountMinor, req.currency,
        req.externalRef, req.idempotencyKey, req.metadata, now1⟩ now1 hfresh
    · exact Credit_retry _ now2 lid2 ws wid req w _ _ hv ha
        (by rw [lockWallet_post]; exact hw) hc
        (findLedger_post_self st ⟨lid1, ws, wid, .credit, req.amountMinor, req.currency,
          req.externalRef, req.idempotencyKey, req.metadata, now1⟩ now1 hfresh)
        (getBalanceTx_post st ⟨lid1, ws, wid, .credit, req.amountMinor, req.currency,
          req.externalRef, req.idempotencyKey, req.metadata, now1⟩ now1)
  · intro st now1 now2 lid1 lid2 ws wid req r hfresh h
    have hv : validateMoneyReq ws wid req.amountMinor req.currency req.idempotencyKey
        = none := by
      rcases hval : validateMoneyReq ws wid req.amountMinor req.currency req.idempotencyKey
        with _ | e
      · rfl
      · exact absurd h (by simp [Debit, hval])
    have ha : ¬ req.amountMinor ≤ 0 := by
      intro ha
      exact absurd h (by simp [Debit, hv, ha])
    obtain ⟨w, hw⟩ : ∃ w, lockWallet st ws wid = .ok w := by
      rcases hl : lockWallet st ws wid with e | w
      · exact absurd h (by simp [Debit, hv, ha, hl])
      · exact ⟨w, rfl⟩
    have hc : w.currency = req.currency := by
      by_contra hc
      exact absurd h (by simp [Debit, hv, ha, hw, hc])
    obtain ⟨pb, hbu⟩ : ∃ pb, getBalanceForUpdate st ws wid = .ok pb := by
      rcases hb : getBalanceForUpdate st ws wid with e | pb
      · exact absurd h (by simp [Debit, hv, ha, hw, hc, hfresh, hb])
      · exact ⟨pb, rfl⟩
    have hbc : pb.currency = req.currency := by
      by_contra hbc
      exact absurd h (by simp [Debit, hv, ha, hw, hc, hfresh, hbu, hbc])
    have hlt : ¬ pb.balanceMinor < req.amountMinor := by
      intro hlt
      exact absurd h (by simp [Debit, hv, ha, hw, hc, hfresh, hbu, hbc, hlt])
    rw [Debit_fresh st now1 lid1 ws wid req w pb hv ha hw hc hfresh hbu hbc hlt] at h
    have hr := (Except.ok.inj h).symm
    subst hr
    constructor
    · exact keyCount_post st ⟨lid1, ws, wid, .debit, -req.amountMinor, req.currency,
        req.externalRef, req.idempotencyKey, req.metadata, now1⟩ now1 hfresh
    · exact Debit_retry _ now2 lid2 ws wid req w _ _ hv ha
        (by rw [lockWallet_post]; exact hw) hc
        (findLedger_post_self st ⟨lid1, ws, wid, .debit, -req.amountMinor, req.currency,
          req.externalRef, req.idempotencyKey, req.metadata, now1⟩ now1 hfresh)
        (getBalanceTx_post st ⟨lid1, ws, wid, .debit, -req.amountMinor, req.currency,
          req.externalRef, req.idempotencyKey, req.metadata, now1⟩ now1)
  · intro st now1 now2 aid1 lid1 aid2 lid2 ws wid au ar req r hfresh h
    have hau : ¬(au = "" ∨ ar = "") := by
      intro hau
      exact absurd h (by simp [AdminManualCredit, hau])
    have hre : ¬ req.reason = "" := by
      intro hre
      exact absurd h (by simp [AdminManualCredit, hau, hre])
    have hv : validateMoneyReq ws wid req.amountMinor req.currency req.idempotencyKey
        = none := by
      rcases hval : validateMoneyReq ws wid req.amountMinor req.currency req.idempotencyKey
        with _ | e
      · rfl
      · exact absurd h (by simp [AdminManualCredit, hau, hre, hval])
    have ha : ¬ req.amountMinor ≤ 0 := by
      intro ha
      exact absurd h (by simp [AdminManualCredit, hau, hre, hv, ha])
    obtain ⟨w, hw⟩ : ∃ w, lockWallet st ws wid = .ok w := by
      rcases hl : lockWallet st ws wid with e | w
      · exact absurd h (by simp [AdminManualCredit, hau, hre, hv, ha, hl])
      · exact ⟨w, rfl⟩
    have hc : w.currency = req.currency := by
      by_contra hc
      exact absurd h (by simp [AdminManualCredit, hau, hre, hv, ha, hw, hc])
    rw [AdminManualCredit_fresh st now1 aid1 lid1 ws wid au ar req w hau hre hv ha hw hc
      hfresh] at h
    have hr := (Except.ok.inj h).symm
    subst hr
    constructor
    · exact keyCount_post st ⟨lid1, ws, wid, .credit, req.amountMinor, req.currency,
        "admin_manual_credit", req.idempotencyKey, req.metadata, now1⟩ now1 hfresh
    · exact ⟨_, AdminManualCredit_retry _ now2 aid2 lid2 ws wid au ar req w _ _ hau hre hv ha
        hw hc
        (findLedger_post_self st ⟨lid1, ws, wid, .credit, req.amountMinor, req.currency,
          "admin_manual_credit", req.idempotencyKey, req.metadata, now1⟩ now1 hfresh)
        (getBalanceTx_post st ⟨lid1, ws, wid, .credit, req.amountMinor, req.currency,
          "admin_manual_credit", req.idempotencyKey, req.metadata, now1⟩ now1)⟩

end Wallet

namespace Wallet

theorem validateMoneyReq_some (ws wid : String) (a : Int) (c k : String) :
    validateMoneyReq ws wid a c k = none ∨
      validateMoneyReq ws wid a c k = some .invalidArgument := by
  unfold validateMoneyReq
  split
  · exact Or.inr rfl
  split
  · exact Or.inr rfl
  split
  · exact Or.inr rfl
  split
  · exact Or.inr rfl
  · exact Or.inl rfl

theorem findBal_of_getBalanceForUpdate (st : DBState) (ws wid : String) (b : Balance)
    (h : getBalanceForUpdate st ws wid = .ok b) :
    findBal st.balances ws wid = b.balanceMinor := by
  unfold getBalanceForUpdate getBalanceTx at h
  unfold findBal
  rcases hf : st.balances.find? (balKeyMatch ws wid) with _ | x
  · rw [hf] at h
    exact absurd h (by simp)
  · rw [hf] at h
    simp only [Except.ok.injEq] at h
    rw [h]

/-- C3: with valid arguments, matching currency and a fresh idempotency key,
Debit fails with insufficient-funds when the amount strictly exceeds the
current balance, fails with invalid-argument for a non-positive amount for
every state (no transaction consulted), writes nothing in either failure case,
and a debit of exactly the balance succeeds leaving balance 0. -/
theorem debit_guards :
    (∀ (st : DBState) (now : Nat) (lid ws wid : String) (req : DebitRequest) (w : Wallet)
      (b : Balance),
      validateMoneyReq ws wid req.amountMinor req.currency req.idempotencyKey = none →
      0 < req.amountMinor →
      lockWallet st ws wid = .ok w →
      w.currency = req.currency →
      findLedgerByIdempotency st ws wid req.idempotencyKey = none →
      getBalanceForUpdate st ws wid = .ok b →
      b.currency = req.currency →
      b.balanceMinor < req.amountMinor →
      Debit st now lid ws wid req = .error .insufficientFunds ∧
      applyOp st (.debit now lid ws wid req) = st) ∧
    (∀ (st : DBState) (now : Nat) (lid ws wid : String) (req : DebitRequest),
      req.amountMinor ≤ 0 →
      Debit st now lid ws wid req = .error .invalidArgument ∧
      applyOp st (.debit now lid ws wid req) = st) ∧
    (∀ (st : DBState) (now : Nat) (lid ws wid : String) (req : DebitRequest) (w : Wallet)
      (b : Balance),
      validateMoneyReq ws wid req.amountMinor req.currency req.idempotencyKey = none →
      0 < req.amountMinor →
      lockWallet st ws wid = .ok w →
      w.currency = req.currency →
      findLedgerByIdempotency st ws wid req.idempotencyKey = none →
      getBalanceForUpdate st ws wid = .ok b →
      b.currency = req.currency →
      b.balanceMinor = req.amountMinor →
      ∃ r, Debit st now lid ws wid req = .ok r ∧ r.balance.balanceMinor = 0) := by
  refine ⟨?_, ?_, ?_⟩
  · intro st now lid ws wid req w b hv h0 hw hc hf hbu hbc hlt
    have hd : Debit st now lid ws wid req = .error .insufficientFunds := by
      simp [Debit, hv, not_le.mpr h0, hw, hc, hf, hbu, hbc, hlt]
    exact ⟨hd, by simp [applyOp, hd]⟩
  · intro st now lid ws wid req hle
    rcases validateMoneyReq_some ws wid req.amountMinor req.currency req.idempotencyKey
      with hv | hv
    · have hd : Debit st now lid ws wid req = .error .invalidArgument := by
        simp [Debit, hv, hle]
      exact ⟨hd, by simp [applyOp, hd]⟩
    · have hd : Debit st now lid ws wid req = .error .invalidArgument := by
        simp [Debit, hv]
      exact ⟨hd, by simp [applyOp, hd]⟩
  · intro st now lid ws wid req w b hv h0 hw hc hf hbu hbc hbe
    refine ⟨_, Debit_fresh st now lid ws wid req w b hv (not_le.mpr h0) hw hc hf hbu hbc
      (by omega), ?_⟩
    have h1 := upsertBalances_fst_balance st.balances ws wid req.currency
      (-req.amountMinor) now
    have h2 := findBal_of_getBalanceForUpdate st ws wid b hbu
    show (upsertBalances st.balances ws wid req.currency (-req.amountMinor) now).1.balanceMinor
      = 0
    omega

/-- C8: a Credit, Debit or AdminCredit whose requested currency differs from the
wallet's stored currency fails with invalid-argument and writes nothing. -/
theorem currency_mismatch_rejects :
    (∀ (st : DBState) (now : Nat) (lid ws wid : String) (req : CreditRequest) (w : Wallet),
      validateMoneyReq ws wid req.amountMinor req.currency req.idempotencyKey = none →
      ¬ req.amountMinor ≤ 0 →
      lockWallet st ws wid = .ok w →
      w.currency ≠ req.currency →
      Credit st now lid ws wid req = .error .invalidArgument ∧
      applyOp st (.credit now lid ws wid req) = st) ∧
    (∀ (st : DBState) (now : Nat) (lid ws wid : String) (req : DebitRequest) (w : Wallet),
      validateMoneyReq ws wid req.amountMinor req.currency req.idempotencyKey = none →
      ¬ req.amountMinor ≤ 0 →
      lockWallet st ws wid = .ok w →
      w.currency ≠ req.currency →
      Debit st now lid ws wid req = .error .invalidArgument ∧
      applyOp st (.debit now lid ws wid req) = st) ∧
    (∀ (st : DBState) (now : Nat) (aid lid ws wid au ar : String) (req : AdminCreditRequest)
      (w : Wallet),
      ¬(au = "" ∨ ar = "") →
      ¬ req.reason = "" →
      validateMoneyReq ws wid req.amountMinor req.currency req.idempotencyKey = none →
      ¬ req.amountMinor ≤ 0 →
      lockWallet st ws wid = .ok w →
      w.currency ≠ req.currency →
      AdminManualCredit st now aid lid ws wid au ar req = .error .invalidArgument ∧
      applyOp st (.adminCredit now aid lid ws wid au ar req) = st) := by
  refine ⟨?_, ?_, ?_⟩
  · intro st now lid ws wid req w hv ha hw hc
    have hd : Credit st now lid ws wid req = .error .invalidArgument := by
      simp [Credit, hv, ha, hw, hc]
    exact ⟨hd, by simp [applyOp, hd]⟩
  · intro st now lid ws wid req w hv ha hw hc
    have hd : Debit st now lid ws wid req = .error .invalidArgument := by
      simp [Debit, hv, ha, hw, hc]
    exact ⟨hd, by simp [applyOp, hd]⟩
  · intro st now aid lid ws wid au ar req w hau hre hv ha hw hc
    have hd : AdminManualCredit st now aid lid ws wid au ar req
        = .error .invalidArgument := by
      simp [AdminManualCredit, hau, hre, hv, ha, hw, hc]
    exact ⟨hd, by simp [applyOp, hd]⟩

/-- C9: a Debit with valid arguments, matching wallet currency and a fresh
idempotency key on an existing wallet that has no balance projection row fails
with not-found (not insufficient-funds) and writes nothing. -/
theorem debit_missing_projection_not_found (st : DBState) (now : Nat)
    (lid ws wid : String) (req : DebitRequest) (w : Wallet)
    (hv : validateMoneyReq ws wid req.amountMinor req.currency req.idempotencyKey = none)
    (ha : ¬ req.amountMinor ≤ 0)
    (hw : lockWallet st ws wid = .ok w)
    (hc : w.currency = req.currency)
    (hf : findLedgerByIdempotency st ws wid req.idempotencyKey = none)
    (hb : st.balances.find? (balKeyMatch ws wid) = none) :
    Debit st now lid ws wid req = .error .notFound ∧
    applyOp st (.debit now lid ws wid req) = st := by
  have hd : Debit st now lid ws wid req = .error .notFound := by
    simp [Debit, hv, ha, hw, hc, hf, getBalanceForUpdate, getBalanceTx, hb]
  exact ⟨hd, by simp [applyOp, hd]⟩

end Wallet

namespace Wallet

/-- Witness for C2 at a concrete wallet: first credit/debit/admin credit each
leave one entry for their key and replay as exact no-ops. -/
theorem money_ops_idempotent_witness :
    (keyCount creditResFix.state "ws" "w1" "k1" = 1 ∧
      Credit creditResFix.state 10 "L9" "ws" "w1" creditReqFix = .ok creditResFix) ∧
    (keyCount debitResFix.state "ws" "w1" "k2" = 1 ∧
      Debit debitResFix.state 11 "L8" "ws" "w1" debitReqFix = .ok debitResFix) ∧
    (keyCount adminResFix.state "ws" "w1" "k3" = 1 ∧
      ∃ act, AdminManualCredit adminResFix.state 12 "A9" "L7" "ws" "w1" "adm" "super_admin"
        adminReqFix = .ok ⟨act, adminResFix.entry, adminResFix.balance, adminResFix.state⟩) :=
  ⟨money_ops_idempotent.1 stFix 1 10 "L1" "L9" "ws" "w1" creditReqFix creditResFix
      (by rfl) (by rfl),
   money_ops_idempotent.2.1 creditResFix.state 2 11 "L2" "L8" "ws" "w1" debitReqFix
      debitResFix (by rfl) (by rfl),
   money_ops_idempotent.2.2 debitResFix.state 3 12 "A1" "L3" "A9" "L7" "ws" "w1" "adm"
      "super_admin" adminReqFix adminResFix (by rfl) (by rfl)⟩

/-- Witness for C3 at a concrete wallet with balance 100: over-debit fails with
insufficient-funds, zero debit fails with invalid-argument, exact debit leaves
balance 0. -/
theorem debit_guards_witness :
    (Debit creditResFix.state 5 "LX" "ws" "w1" ⟨200, "USD", "", "k9", ""⟩
        = .error .insufficientFunds ∧
      applyOp creditResFix.state (.debit 5 "LX" "ws" "w1" ⟨200, "USD", "", "k9", ""⟩)
        = creditResFix.state) ∧
    (Debit stFix 5 "LY" "ws" "w1" ⟨0, "USD", "", "k8", ""⟩ = .error .invalidArgument ∧
      applyOp stFix (.debit 5 "LY" "ws" "w1" ⟨0, "USD", "", "k8", ""⟩) = stFix) ∧
    (∃ r, Debit creditResFix.state 6 "LZ" "ws" "w1" ⟨100, "USD", "", "k7", ""⟩ = .ok r ∧
      r.balance.balanceMinor = 0) :=
  ⟨debit_guards.1 creditResFix.state 5 "LX" "ws" "w1" ⟨200, "USD", "", "k9", ""⟩ wFix
      creditResFix.balance (by rfl) (by decide) (by rfl) (by rfl) (by rfl) (by rfl)
      (by rfl) (by decide),
   debit_guards.2.1 stFix 5 "LY" "ws" "w1" ⟨0, "USD", "", "k8", ""⟩ (by decide),
   debit_guards.2.2 creditResFix.state 6 "LZ" "ws" "w1" ⟨100, "USD", "", "k7", ""⟩ wFix
      creditResFix.balance (by rfl) (by decide) (by rfl) (by rfl) (by rfl) (by rfl)
      (by rfl) (by decide)⟩

/-- Witness for C8: a EUR request against the USD wallet fails with
invalid-argument for all three operations, leaving the state unchanged. -/
theorem currency_mismatch_rejects_witness :
    (Credit stFix 5 "LE" "ws" "w1" ⟨10, "EUR", "", "k6", ""⟩ = .error .invalidArgument ∧
      applyOp stFix (.credit 5 "LE" "ws" "w1" ⟨10, "EUR", "", "k6", ""⟩) = stFix) ∧
    (Debit stFix 5 "LF" "ws" "w1" ⟨10, "EUR", "", "k6", ""⟩ = .error .invalidArgument ∧
      applyOp stFix (.debit 5 "LF" "ws" "w1" ⟨10, "EUR", "", "k6", ""⟩) = stFix) ∧
    (AdminManualCredit stFix 5 "AE" "LG" "ws" "w1" "adm" "super_admin"
        ⟨10, "EUR", "fix", "k6", ""⟩ = .error .invalidArgument ∧
      applyOp stFix (.adminCredit 5 "AE" "LG" "ws" "w1" "adm" "super_admin"
        ⟨10, "EUR", "fix", "k6", ""⟩) = stFix) :=
  ⟨currency_mismatch_rejects.1 stFix 5 "LE" "ws" "w1" ⟨10, "EUR", "", "k6", ""⟩ wFix
      (by rfl) (by decide) (by rfl) (by decide),
   currency_mismatch_rejects.2.1 stFix 5 "LF" "ws" "w1" ⟨10, "EUR", "", "k6", ""⟩ wFix
      (by rfl) (by decide) (by rfl) (by decide),
   currency_mismatch_rejects.2.2 stFix 5 "AE" "LG" "ws" "w1" "adm" "super_admin"
      ⟨10, "EUR", "fix", "k6", ""⟩ wFix (by decide) (by decide) (by rfl) (by decide)
      (by rfl) (by decide)⟩

/-- Witness for C9: a debit against the freshly provisioned wallet (no balance
projection row yet) fails with not-found and writes nothing. -/
theorem debit_missing_projection_not_found_witness :
    Debit stFix 5 "LN" "ws" "w1" ⟨10, "USD", "", "k5", ""⟩ = .error .notFound ∧
    applyOp stFix (.debit 5 "LN" "ws" "w1" ⟨10, "USD", "", "k5", ""⟩) = stFix :=
  debit_missing_projection_not_found stFix 5 "LN" "ws" "w1" ⟨10, "USD", "", "k5", ""⟩ wFix
    (by rfl) (by decide) (by rfl) (by rfl) (by rfl) (by rfl)

end Wallet

namespace Routing

theorem Decide_applied_shape (e : AdminOverrideEngine) (ip ws camp : String)
    (req : InboundCallRequest) (d : Decision) (evs : List OverrideAuditEvent)
    (h : Decide e ip ws camp req = .ok (some d, evs)) :
    d.action = .connect ∧ d.reason = "" ∧ d.workspaceID = ws ∧ d.campaignID = camp := by
  unfold Decide at h
  split at h
  · exact absurd h (by simp)
  split at h
  · exact absurd h (by simp)
  split at h
  · exact absurd h (by simp)
  · exact absurd h (by simp)
  · split at h
    · exact absurd h (by simp)
    split at h
    · exact absurd h (by simp)
    · simp only [Except.ok.injEq, Prod.mk.injEq, Option.some.injEq] at h
      obtain ⟨hd, -⟩ := h
      subst hd
      exact ⟨rfl, rfl, rfl, rfl⟩

theorem routeCampaignStage_shape (e : RoutingEngine) (inp : RouteInput) (d : Decision)
    (h : routeCampaignStage e inp = .ok d) :
    (d.action = .connect ∧ d.reason = "selected") ∨ d.action = .reject := by
  unfold routeCampaignStage at h
  split at h
  · have hd := Except.ok.inj h
    subst hd
    exact Or.inr rfl
  split at h
  · exact absurd h (by simp)
  split at h
  · exact absurd h (by simp)
  · split at h
    · have hd := Except.ok.inj h
      subst hd
      exact Or.inr rfl
    · split at h
      · have hd := Except.ok.inj h
        subst hd
        exact Or.inl ⟨rfl, rfl⟩
      · have hd := Except.ok.inj h
        subst hd
        exact Or.inr rfl

theorem routeBalanceGate_shape (e : RoutingEngine) (inp : RouteInput) (d : Decision)
    (h : routeBalanceGate e inp = .ok d) :
    (d.action = .connect ∧ d.reason = "selected") ∨ d.action = .reject := by
  unfold routeBalanceGate at h
  split at h
  · split at h
    · exact absurd h (by simp)
    split at h
    · exact absurd h (by simp)
    split at h
    · exact absurd h (by simp)
    split at h
    · exact absurd h (by simp)
    · split at h
      · have hd := Except.ok.inj h
        subst hd
        exact Or.inr rfl
      split at h
      · have hd := Except.ok.inj h
        subst hd
        exact Or.inr rfl
      · exact routeCampaignStage_shape e inp d h
  · exact routeCampaignStage_shape e inp d h

theorem routeStages_shape (e : RoutingEngine) (inp : RouteInput) (d : Decision)
    (h : routeStages e inp = .ok d) :
    (d.action = .connect ∧ (d.reason = "admin_override" ∨ d.reason = "selected")) ∨
    d.action = .reject := by
  unfold routeStages at h
  split at h
  · split at h
    · have hd := Except.ok.inj h
      subst hd
      exact Or.inl ⟨rfl, Or.inl rfl⟩
    · have hd := Except.ok.inj h
      subst hd
      exact Or.inr rfl
  · rcases routeBalanceGate_shape e inp d h with ⟨h1, h2⟩ | h1
    · exact Or.inl ⟨h1, Or.inr h2⟩
    · exact Or.inr h1

theorem Route_ok_inversion (e : RoutingEngine) (ip : String) (inp : RouteInput)
    (d : Decision) (evs : List OverrideAuditEvent) (h : Route e ip inp = .ok (d, evs)) :
    (∃ ov, e.overrides = some ov ∧
      Decide ov ip inp.workspaceID inp.campaignID inp.inbound = .ok (some d, evs)) ∨
    (routeStages e inp = .ok d ∧ evs = []) := by
  by_cases hws : inp.workspaceID = ""
  · exact absurd h (by simp [Route, hws])
  rcases hov : e.overrides with _ | ov
  · right
    rcases hs : routeStages e inp with m | d'
    · exact absurd h (by simp [Route, if_neg hws, hov, hs])
    · simp only [Route, if_neg hws, hov, hs] at h
      simp only [Except.ok.injEq, Prod.mk.injEq] at h
      obtain ⟨h1, h2⟩ := h
      exact ⟨by rw [h1], h2.symm⟩
  · rcases hd : Decide ov ip inp.workspaceID inp.campaignID inp.inbound with m | p
    · exact absurd h (by simp [Route, if_neg hws, hov, hd])
    · rcases p with ⟨od, evs'⟩
      rcases od with _ | d0
      · right
        rcases hs : routeStages e inp with m | d'
        · exact absurd h (by simp [Route, if_neg hws, hov, hd, hs])
        · simp only [Route, if_neg hws, hov, hd, hs] at h
          simp only [Except.ok.injEq, Prod.mk.injEq] at h
          obtain ⟨h1, h2⟩ := h
          exact ⟨by rw [h1], h2.symm⟩
      · left
        simp only [Route, if_neg hws, hov, hd] at h
        simp only [Except.ok.injEq, Prod.mk.injEq] at h
        obtain ⟨h1, h2⟩ := h
        exact ⟨ov, rfl, by rw [← h1, ← h2]; exact hd⟩

end Routing

namespace Routing

/-- C10: every Decision RoutingEngine.Route returns without an error has action
connect or reject; Route never returns the declared hangup action. -/
theorem route_never_hangup (e : RoutingEngine) (ip : String) (inp : RouteInput)
    (d : Decision) (evs : List OverrideAuditEvent) (h : Route e ip inp = .ok (d, evs)) :
    (d.action = .connect ∨ d.action = .reject) ∧ d.action ≠ .hangup := by
  have hca : d.action = .connect ∨ d.action = .reject := by
    rcases Route_ok_inversion e ip inp d evs h with ⟨ov, -, hd⟩ | ⟨hs, -⟩
    · exact Or.inl (Decide_applied_shape ov ip _ _ _ d evs hd).1
    · rcases routeStages_shape e inp d hs with ⟨h1, -⟩ | h1
      · exact Or.inl h1
      · exact Or.inr h1
  refine ⟨hca, ?_⟩
  rcases hca with h1 | h1 <;> simp [h1]

/-- Witness for C10 at a concrete override run. -/
theorem route_never_hangup_witness :
    (decFix.action = .connect ∨ decFix.action = .reject) ∧ decFix.action ≠ .hangup :=
  route_never_hangup routeEngineFix "ip" routeInputFix decFix [evFix] (by rfl)

theorem route_empty_reason_connect_from_override (e : RoutingEngine) (ip : String)
    (inp : RouteInput) (d : Decision) (evs : List OverrideAuditEvent)
    (h : Route e ip inp = .ok (d, evs)) (hc : d.action = .connect) (hr : d.reason = "") :
    ∃ ov, e.overrides = some ov ∧
      Decide ov ip inp.workspaceID inp.campaignID inp.inbound = .ok (some d, evs) := by
  rcases Route_ok_inversion e ip inp d evs h with hov | ⟨hs, -⟩
  · exact hov
  · rcases routeStages_shape e inp d hs with ⟨-, h2⟩ | h2
    · rcases h2 with h2 | h2 <;> rw [hr] at h2 <;> exact absurd h2 (by decide)
    · rw [hc] at h2
      exact absurd h2 (by decide)

/-- C5 counterexample: an applied override produces the connect Decision
`decFix` with an empty reason, and no non-override run of Route can produce an
identical Decision value — every Route run returning `decFix` has an applied
override behind it, because every non-override connect Decision carries reason
"selected" or "admin_override", never the empty reason. -/
theorem override_indistinguishable_cex :
    Route routeEngineFix "ip" routeInputFix = .ok (decFix, [evFix]) ∧
    decFix.action = .connect ∧ decFix.reason = "" ∧
    (∀ (e : RoutingEngine) (ip : String) (inp : RouteInput)
      (evs : List OverrideAuditEvent),
      Route e ip inp = .ok (decFix, evs) →
      ∃ ov, e.overrides = some ov ∧
        Decide ov ip inp.workspaceID inp.campaignID inp.inbound = .ok (some decFix, evs)) :=
  ⟨by rfl, rfl, rfl, fun e ip inp evs h =>
    route_empty_reason_connect_from_override e ip inp decFix evs h rfl rfl⟩

end Routing

namespace Routing

/-- C5 (amended): an override-applied Decision has no reason string set, and at
the provider-adapter boundary an override-driven connect is indistinguishable
from a normal connect: for every Route result with action=connect produced by
an applied override there is a non-override run of Route producing a Decision
with the same action and connect target whose rendered InboundCallResult is
identical — the Decision values themselves differ only in the reason, which the
adapter drops ("" for the override, "selected" for the normal connect). -/
theorem override_silent_amended (ov : AdminOverrideEngine) (ip ws camp : String)
    (req : InboundCallRequest) (d : Decision) (evs : List OverrideAuditEvent)
    (h : Decide ov ip ws camp req = .ok (some d, evs)) :
    d.reason = "" ∧ d.action = .connect ∧
    ∃ (e' : RoutingEngine) (inp' : RouteInput) (d' : Decision),
      e'.overrides = none ∧
      Route e' ip inp' = .ok (d', []) ∧
      d'.action = .connect ∧ d'.connectTo = d.connectTo ∧ d'.reason = "selected" ∧
      renderDecision d' = renderDecision d := by
  obtain ⟨hact, hreason, hws, hcamp⟩ := Decide_applied_shape ov ip ws camp req d evs h
  refine ⟨hreason, hact, ?_⟩
  have hwsne : ws ≠ "" := by
    intro hws0
    rw [hws0] at h
    simp [Decide] at h
  refine ⟨⟨none, none, some (fun _ _ _ => .ok ⟨true, "", [⟨d.connectTo, 1⟩]⟩), fun _ => 0⟩,
    ⟨ws, "c0", "", "", 0, "", req⟩, ⟨ws, "c0", .connect, d.connectTo, "selected"⟩,
    rfl, ?_, rfl, rfl, rfl, ?_⟩
  · simp [Route, if_neg hwsne, routeStages, IsSuperAdmin, RoleSuperAdmin,
      RoleNetworkOperator, routeBalanceGate, routeCampaignStage, pickDestination,
      sumPosWeights, pickWalk]
  · cases d with
    | mk dws dcamp dact dct drs =>
      simp only [Decision.workspaceID] at hws
      simp only [Decision.action] at hact
      subst hws
      subst hact
      simp [renderDecision]

/-- Witness for the amended C5 at the concrete override fixture. -/
theorem override_silent_amended_witness :
    decFix.reason = "" ∧ decFix.action = .connect ∧
    ∃ (e' : RoutingEngine) (inp' : RouteInput) (d' : Decision),
      e'.overrides = none ∧
      Route e' "ip" inp' = .ok (d', []) ∧
      d'.action = .connect ∧ d'.connectTo = decFix.connectTo ∧ d'.reason = "selected" ∧
      renderDecision d' = renderDecision decFix :=
  override_silent_amended ovEngineFix "ip" "w" "c" inboundFix decFix [evFix] (by rfl)

end Routing

namespace Routing

/-- C4: when the store returns a found override with expiry strictly after the
engine's current instant and a non-empty connect target (and the engine has an
injected store and audit sink, and the workspace id is non-empty as Decide's
contract requires), Decide returns applied with a connect Decision to the
override's target, empty reason, and exactly one audit event; Route returns
that Decision immediately, whatever wallet service, campaign service, random
source or acting role is configured.  When the store's override has expiry not
strictly after the current instant, the outcome is identical to a store
reporting no override. -/
theorem override_precedence :
    (∀ (ov : AdminOverrideEngine) (store : OverrideStore) (ip ws camp : String)
      (req : InboundCallRequest) (o : Override),
      ov.store = some store →
      store ws camp req ov.now = .ok (some o) →
      ov.now < o.expiresAt →
      o.connectTo ≠ "" →
      ov.auditConfigured = true →
      ws ≠ "" →
      Decide ov ip ws camp req =
        .ok (some ⟨ws, camp, .connect, o.connectTo, ""⟩,
          [⟨ws, camp, o.overrideID, req.providerCallID, req.from_, req.to_, ip,
            o.connectTo, ov.now, o.expiresAt, o.metadata⟩]) ∧
      (∀ (wsvc : Option BalanceService) (csvc : Option CampaignService)
        (intn : Nat → Nat) (role wid : String) (est : Int) (cur : String),
        Route ⟨some ov, wsvc, csvc, intn⟩ ip ⟨ws, camp, role, wid, est, cur, req⟩ =
          .ok (⟨ws, camp, .connect, o.connectTo, ""⟩,
            [⟨ws, camp, o.overrideID, req.providerCallID, req.from_, req.to_, ip,
              o.connectTo, ov.now, o.expiresAt, o.metadata⟩]))) ∧
    (∀ (ov : AdminOverrideEngine) (store : OverrideStore) (ip ws camp : String)
      (req : InboundCallRequest) (o : Override) (storeN : OverrideStore),
      ov.store = some store →
      store ws camp req ov.now = .ok (some o) →
      ¬ ov.now < o.expiresAt →
      (∀ a b c d, storeN a b c d = .ok none) →
      Decide ov ip ws camp req = Decide { ov with store := some storeN } ip ws camp req) := by
  constructor
  · intro ov store ip ws camp req o hst hsr hexp hct haud hws
    have hD : Decide ov ip ws camp req =
        .ok (some ⟨ws, camp, .connect, o.connectTo, ""⟩,
          [⟨ws, camp, o.overrideID, req.providerCallID, req.from_, req.to_, ip,
            o.connectTo, ov.now, o.expiresAt, o.metadata⟩]) := by
      simp [Decide, hws, hst, hsr, hexp, hct, haud]
    exact ⟨hD, fun wsvc csvc intn role wid est cur => by simp [Route, hws, hD]⟩
  · intro ov store ip ws camp req o storeN hst hsr hexp hN
    by_cases hws : ws = ""
    · simp [Decide, hws]
    · simp [Decide, hws, hst, hsr, hexp, hN]

/-- Witness for C4 at the concrete fixtures: the unexpired override applies with
one audit event for every downstream configuration, and the expired override is
indistinguishable from an absent one. -/
theorem override_precedence_witness :
    (Decide ovEngineFix "ip" "w" "c" inboundFix = .ok (some decFix, [evFix]) ∧
      (∀ (wsvc : Option BalanceService) (csvc : Option CampaignService)
        (intn : Nat → Nat) (role wid : String) (est : Int) (cur : String),
        Route ⟨some ovEngineFix, wsvc, csvc, intn⟩ "ip"
          ⟨"w", "c", role, wid, est, cur, inboundFix⟩ = .ok (decFix, [evFix]))) ∧
    Decide ovExpiredFix "ip" "w" "c" inboundFix =
      Decide { ovExpiredFix with store := some storeNoneFix } "ip" "w" "c" inboundFix := by
  constructor
  · exact override_precedence.1 ovEngineFix (fun _ _ _ _ => .ok (some ovFix)) "ip" "w" "c"
      inboundFix ovFix rfl rfl (by decide) (by decide) rfl (by decide)
  · exact override_precedence.2 ovExpiredFix
      (fun _ _ _ _ => .ok (some ⟨"w", "c", "ov2", "sip:y", 5, ""⟩)) "ip" "w" "c"
      inboundFix ⟨"w", "c", "ov2", "sip:y", 5, ""⟩ storeNoneFix rfl rfl (by decide)
      (fun _ _ _ _ => rfl)

end Routing

namespace Routing

theorem Route_noBypass_ok (e : RoutingEngine) (ip : String) (inp : RouteInput) (d : Decision)
    (hnb : NoBypass e ip inp) (hws : inp.workspaceID ≠ "")
    (hbg : routeBalanceGate e inp = .ok d) :
    Route e ip inp = .ok (d, []) := by
  obtain ⟨hrole, hov⟩ := hnb
  have hs : routeStages e inp = .ok d := by
    simp [routeStages, hrole, hbg]
  rcases hov with hov | ⟨ov, hov, hd⟩
  · simp [Route, hws, hov, hs]
  · simp [Route, hws, hov, hd, hs]

theorem Route_noBypass_error (e : RoutingEngine) (ip : String) (inp : RouteInput)
    (m : String) (hnb : NoBypass e ip inp) (hws : inp.workspaceID ≠ "")
    (hbg : routeBalanceGate e inp = .error m) :
    Route e ip inp = .error m := by
  obtain ⟨hrole, hov⟩ := hnb
  have hs : routeStages e inp = .error m := by
    simp [routeStages, hrole, hbg]
  rcases hov with hov | ⟨ov, hov, hd⟩
  · simp [Route, hws, hov, hs]
  · simp [Route, hws, hov, hd, hs]

/-- C7: for a non-privileged role with no applied override, the balance gate
runs only for a strictly positive estimated cost; a missing wallet service,
empty wallet id or empty currency then yields an error (not a Decision); a
balance in a different currency yields reject "wallet_currency_mismatch"; a
balance strictly below the estimate yields reject "insufficient_balance"; and
for a non-positive estimate the wallet service is never consulted (the result
does not depend on it). -/
theorem balance_gate_spec :
    (∀ (e : RoutingEngine) (ip : String) (inp : RouteInput),
      NoBypass e ip inp → inp.workspaceID ≠ "" →
      0 < inp.estimatedMinor → e.wallet = none →
      Route e ip inp = .error "routing: wallet service not configured") ∧
    (∀ (e : RoutingEngine) (ip : String) (inp : RouteInput) (wsvc : BalanceService),
      NoBypass e ip inp → inp.workspaceID ≠ "" →
      0 < inp.estimatedMinor → e.wallet = some wsvc → inp.walletID = "" →
      Route e ip inp = .error "routing: wallet_id required when estimated cost is provided") ∧
    (∀ (e : RoutingEngine) (ip : String) (inp : RouteInput) (wsvc : BalanceService),
      NoBypass e ip inp → inp.workspaceID ≠ "" →
      0 < inp.estimatedMinor → e.wallet = some wsvc → inp.walletID ≠ "" →
      inp.currency = "" →
      Route e ip inp = .error "routing: currency required when estimated cost is provided") ∧
    (∀ (e : RoutingEngine) (ip : String) (inp : RouteInput) (wsvc : BalanceService)
      (bal : Wallet.Balance),
      NoBypass e ip inp → inp.workspaceID ≠ "" →
      0 < inp.estimatedMinor → e.wallet = some wsvc → inp.walletID ≠ "" →
      inp.currency ≠ "" →
      wsvc inp.workspaceID inp.walletID = .ok bal →
      bal.currency ≠ inp.currency →
      Route e ip inp =
        .ok (⟨inp.workspaceID, inp.campaignID, .reject, "", "wallet_currency_mismatch"⟩, [])) ∧
    (∀ (e : RoutingEngine) (ip : String) (inp : RouteInput) (wsvc : BalanceService)
      (bal : Wallet.Balance),
      NoBypass e ip inp → inp.workspaceID ≠ "" →
      0 < inp.estimatedMinor → e.wallet = some wsvc → inp.walletID ≠ "" →
      inp.currency ≠ "" →
      wsvc inp.workspaceID inp.walletID = .ok bal →
      bal.currency = inp.currency →
      bal.balanceMinor < inp.estimatedMinor →
      Route e ip inp =
        .ok (⟨inp.workspaceID, inp.campaignID, .reject, "", "insufficient_balance"⟩, [])) ∧
    (∀ (e : RoutingEngine) (ip : String) (inp : RouteInput)
      (w1 w2 : Option BalanceService),
      NoBypass e ip inp →
      inp.estimatedMinor ≤ 0 →
      Route { e with wallet := w1 } ip inp = Route { e with wallet := w2 } ip inp) := by
  refine ⟨?_, ?_, ?_, ?_, ?_, ?_⟩
  · intro e ip inp hnb hws hest hwal
    exact Route_noBypass_error e ip inp _ hnb hws (by simp [routeBalanceGate, hest, hwal])
  · intro e ip inp wsvc hnb hws hest hwal hwid
    exact Route_noBypass_error e ip inp _ hnb hws
      (by simp [routeBalanceGate, hest, hwal, hwid])
  · intro e ip inp wsvc hnb hws hest hwal hwid hcur
    exact Route_noBypass_error e ip inp _ hnb hws
      (by simp [routeBalanceGate, hest, hwal, hwid, hcur])
  · intro e ip inp wsvc bal hnb hws hest hwal hwid hcur hbal hmis
    exact Route_noBypass_ok e ip inp _ hnb hws
      (by simp [routeBalanceGate, hest, hwal, hwid, hcur, hbal, hmis])
  · intro e ip inp wsvc bal hnb hws hest hwal hwid hcur hbal hceq hlt
    exact Route_noBypass_ok e ip inp _ hnb hws
      (by simp [routeBalanceGate, hest, hwal, hwid, hcur, hbal, hceq, hlt])
  · intro e ip inp w1 w2 hnb hle
    by_cases hws : inp.workspaceID = ""
    · simp [Route, hws]
    · have hbg : ∀ w' : Option BalanceService,
          routeBalanceGate { e with wallet := w' } inp = routeCampaignStage e inp := by
        intro w'
        unfold routeBalanceGate
        rw [if_neg (not_lt.mpr hle)]
        rfl
      rcases hs : routeCampaignStage e inp with m | dd
      · rw [Route_noBypass_error { e with wallet := w1 } ip inp m hnb hws
            (by rw [hbg w1]; exact hs),
          Route_noBypass_error { e with wallet := w2 } ip inp m hnb hws
            (by rw [hbg w2]; exact hs)]
      · rw [Route_noBypass_ok { e with wallet := w1 } ip inp dd hnb hws
            (by rw [hbg w1]; exact hs),
          Route_noBypass_ok { e with wallet := w2 } ip inp dd hnb hws
            (by rw [hbg w2]; exact hs)]

end Routing

namespace Routing

/-- Witness for C7 at concrete engines and inputs exercising each gate
outcome. -/
theorem balance_gate_spec_witness :
    (Route ⟨none, none, none, fun _ => 0⟩ "ip" ⟨"w", "", "", "wx", 5, "USD", inboundFix⟩
      = .error "routing: wallet service not configured") ∧
    (Route ⟨none, some (fun _ _ => .error "x"), none, fun _ => 0⟩ "ip"
        ⟨"w", "", "", "", 5, "USD", inboundFix⟩
      = .error "routing: wallet_id required when estimated cost is provided") ∧
    (Route ⟨none, some (fun _ _ => .error "x"), none, fun _ => 0⟩ "ip"
        ⟨"w", "", "", "wx", 5, "", inboundFix⟩
      = .error "routing: currency required when estimated cost is provided") ∧
    (Route ⟨none, some (fun _ _ => .ok ⟨"w", "wx", "EUR", 50, 0⟩), none, fun _ => 0⟩ "ip"
        ⟨"w", "", "", "wx", 5, "USD", inboundFix⟩
      = .ok (⟨"w", "", .reject, "", "wallet_currency_mismatch"⟩, [])) ∧
    (Route ⟨none, some (fun _ _ => .ok ⟨"w", "wx", "USD", 1, 0⟩), none, fun _ => 0⟩ "ip"
        ⟨"w", "", "", "wx", 10, "USD", inboundFix⟩
      = .ok (⟨"w", "", .reject, "", "insufficient_balance"⟩, [])) ∧
    (Route ⟨none, none, none, fun _ => 0⟩ "ip" ⟨"w", "", "", "", 0, "", inboundFix⟩ =
      Route ⟨none, some (fun _ _ => .error "x"), none, fun _ => 0⟩ "ip"
        ⟨"w", "", "", "", 0, "", inboundFix⟩) := by
  refine ⟨?_, ?_, ?_, ?_, ?_, ?_⟩
  · exact balance_gate_spec.1 ⟨none, none, none, fun _ => 0⟩ "ip"
      ⟨"w", "", "", "wx", 5, "USD", inboundFix⟩ ⟨by decide, Or.inl rfl⟩ (by decide)
      (by decide) rfl
  · exact balance_gate_spec.2.1 ⟨none, some (fun _ _ => .error "x"), none, fun _ => 0⟩ "ip"
      ⟨"w", "", "", "", 5, "USD", inboundFix⟩ (fun _ _ => .error "x")
      ⟨by decide, Or.inl rfl⟩ (by decide) (by decide) rfl rfl
  · exact balance_gate_spec.2.2.1 ⟨none, some (fun _ _ => .error "x"), none, fun _ => 0⟩
      "ip" ⟨"w", "", "", "wx", 5, "", inboundFix⟩ (fun _ _ => .error "x")
      ⟨by decide, Or.inl rfl⟩ (by decide) (by decide) rfl (by decide) rfl
  · exact balance_gate_spec.2.2.2.1
      ⟨none, some (fun _ _ => .ok ⟨"w", "wx", "EUR", 50, 0⟩), none, fun _ => 0⟩ "ip"
      ⟨"w", "", "", "wx", 5, "USD", inboundFix⟩ (fun _ _ => .ok ⟨"w", "wx", "EUR", 50, 0⟩)
      ⟨"w", "wx", "EUR", 50, 0⟩ ⟨by decide, Or.inl rfl⟩ (by decide) (by decide) rfl
      (by decide) (by decide) rfl (by decide)
  · exact balance_gate_spec.2.2.2.2.1
      ⟨none, some (fun _ _ => .ok ⟨"w", "wx", "USD", 1, 0⟩), none, fun _ => 0⟩ "ip"
      ⟨"w", "", "", "wx", 10, "USD", inboundFix⟩ (fun _ _ => .ok ⟨"w", "wx", "USD", 1, 0⟩)
      ⟨"w", "wx", "USD", 1, 0⟩ ⟨by decide, Or.inl rfl⟩ (by decide) (by decide) rfl
      (by decide) (by decide) rfl (by decide) (by decide)
  · exact balance_gate_spec.2.2.2.2.2 ⟨none, none, none, fun _ => 0⟩ "ip"
      ⟨"w", "", "", "", 0, "", inboundFix⟩ none (some (fun _ _ => .error "x"))
      ⟨by decide, Or.inl rfl⟩ (by decide)

end Routing

namespace Routing

theorem sumPos_foldl (dests : List WeightedDestination) (a : Int) :
    dests.foldl (fun acc d => if d.weight ≤ 0 then acc else acc + d.weight) a =
      a + ((dests.filter (fun d => 0 < d.weight)).map (·.weight)).sum := by
  induction dests generalizing a with
  | nil => simp
  | cons d rest ih =>
    by_cases hd : d.weight ≤ 0
    · have hnp : ¬ 0 < d.weight := not_lt.mpr hd
      simp only [List.foldl_cons, if_pos hd]
      rw [ih a]
      simp [List.filter_cons, hnp]
    · have hp : 0 < d.weight := not_le.mp hd
      simp only [List.foldl_cons, if_neg hd]
      rw [ih (a + d.weight)]
      simp [List.filter_cons, hp]
      ring

theorem sumPos_eq (dests : List WeightedDestination) :
    sumPosWeights dests = ((dests.filter (fun d => 0 < d.weight)).map (·.weight)).sum := by
  unfold sumPosWeights
  rw [sumPos_foldl]
  ring

theorem cumPos_zero (dests : List WeightedDestination) : cumPos dests 0 = 0 := by
  simp [cumPos]

theorem cumPos_cons_succ (d : WeightedDestination) (rest : List WeightedDestination)
    (j : Nat) :
    cumPos (d :: rest) (j + 1) =
      (if 0 < d.weight then d.weight else 0) + cumPos rest j := by
  by_cases hd : 0 < d.weight
  · simp [cumPos, List.take_succ_cons, List.filter_cons, hd]
  · simp [cumPos, List.take_succ_cons, List.filter_cons, hd]

theorem cumPos_nonneg (dests : List WeightedDestination) (i : Nat) :
    0 ≤ cumPos dests i := by
  apply List.sum_nonneg
  intro x hx
  obtain ⟨dd, hdd, hxw⟩ := List.mem_map.mp hx
  have := (List.mem_filter.mp hdd).2
  rw [← hxw]
  exact le_of_lt (by simpa using this)

theorem cumPos_succ_le (dests : List WeightedDestination) (i : Nat) :
    cumPos dests i ≤ cumPos dests (i + 1) := by
  unfold cumPos
  rw [List.take_succ, List.filter_append, List.map_append, List.sum_append]
  have : 0 ≤ ((List.filter (fun d => 0 < d.weight) dests[i]?.toList).map (·.weight)).sum := by
    apply List.sum_nonneg
    intro x hx
    obtain ⟨dd, hdd, hxw⟩ := List.mem_map.mp hx
    have := (List.mem_filter.mp hdd).2
    rw [← hxw]
    exact le_of_lt (by simpa using this)
  omega

theorem cumPos_mono (dests : List WeightedDestination) (i j : Nat) (h : i ≤ j) :
    cumPos dests i ≤ cumPos dests j := by
  induction j with
  | zero =>
    have : i = 0 := Nat.le_zero.mp h
    rw [this]
  | succ j ih =>
    rcases Nat.lt_or_ge i (j + 1) with h1 | h1
    · exact le_trans (ih (Nat.lt_succ_iff.mp h1)) (cumPos_succ_le dests j)
    · have : i = j + 1 := le_antisymm h h1
      rw [this]

theorem cumPos_length (dests : List WeightedDestination) :
    cumPos dests dests.length = sumPosWeights dests := by
  rw [sumPos_eq]
  unfold cumPos
  rw [List.take_length]

theorem cumPos_succ_get (dests : List WeightedDestination) (i : Nat)
    (dd : WeightedDestination) (hget : dests[i]? = some dd) :
    cumPos dests (i + 1) =
      cumPos dests i + (if 0 < dd.weight then dd.weight else 0) := by
  unfold cumPos
  rw [List.take_succ, hget, List.filter_append, List.map_append, List.sum_append]
  by_cases hd : 0 < dd.weight
  · simp [List.filter_cons, hd]
  · simp [List.filter_cons, hd]

end Routing

namespace Routing

theorem selIdx_iff (dests : List WeightedDestination) (r : Int) (i : Nat) (hr : 0 ≤ r) :
    selIdx dests r = some i ↔
      ∃ dd, dests[i]? = some dd ∧ 0 < dd.weight ∧
        cumPos dests i ≤ r ∧ r < cumPos dests (i + 1) := by
  induction dests generalizing r i with
  | nil => simp [selIdx]
  | cons d rest ih =>
    by_cases hd : d.weight ≤ 0
    · cases i with
      | zero =>
        simp only [selIdx, if_pos hd]
        constructor
        · intro h
          obtain ⟨j, hj, hji⟩ := Option.map_eq_some'.mp h
          exact absurd hji (by omega)
        · rintro ⟨dd, hdd, hw, -, -⟩
          simp only [List.getElem?_cons_zero, Option.some.injEq] at hdd
          rw [hdd] at hd
          exact absurd hw (not_lt.mpr hd)
      | succ i' =>
        simp only [selIdx, if_pos hd]
        constructor
        · intro h
          obtain ⟨j, hj, hji⟩ := Option.map_eq_some'.mp h
          have hj' : j = i' := by omega
          rw [hj'] at hj
          obtain ⟨dd, h1, h2, h3, h4⟩ := (ih r i' hr).mp hj
          refine ⟨dd, by simpa using h1, h2, ?_, ?_⟩
          · rw [cumPos_cons_succ, if_neg (not_lt.mpr hd)]
            omega
          · rw [cumPos_cons_succ, if_neg (not_lt.mpr hd)]
            omega
        · rintro ⟨dd, h1, h2, h3, h4⟩
          rw [cumPos_cons_succ, if_neg (not_lt.mpr hd)] at h3 h4
          have := (ih r i' hr).mpr ⟨dd, by simpa using h1, h2, by omega, by omega⟩
          rw [this]
          rfl
    · by_cases hlt : r < d.weight
      · simp only [selIdx, if_neg hd, if_pos hlt]
        cases i with
        | zero =>
          constructor
          · intro _
            refine ⟨d, by simp, not_le.mp hd, ?_, ?_⟩
            · rw [cumPos_zero]
              exact hr
            · rw [cumPos_cons_succ, if_pos (not_le.mp hd), cumPos_zero]
              omega
          · intro _
            rfl
        | succ i' =>
          constructor
          · intro h
            simp at h
          · rintro ⟨dd, h1, h2, h3, h4⟩
            rw [cumPos_cons_succ, if_pos (not_le.mp hd)] at h3
            have := cumPos_nonneg rest i'
            exfalso
            omega
      · simp only [selIdx, if_neg hd, if_neg hlt]
        have hr' : 0 ≤ r - d.weight := by omega
        cases i with
        | zero =>
          constructor
          · intro h
            obtain ⟨j, hj, hji⟩ := Option.map_eq_some'.mp h
            exact absurd hji (by omega)
          · rintro ⟨dd, h1, h2, h3, h4⟩
            rw [cumPos_cons_succ, if_pos (not_le.mp hd), cumPos_zero] at h4
            exfalso
            omega
        | succ i' =>
          constructor
          · intro h
            obtain ⟨j, hj, hji⟩ := Option.map_eq_some'.mp h
            have hj' : j = i' := by omega
            rw [hj'] at hj
            obtain ⟨dd, h1, h2, h3, h4⟩ := (ih (r - d.weight) i' hr').mp hj
            refine ⟨dd, by simpa using h1, h2, ?_, ?_⟩
            · rw [cumPos_cons_succ, if_pos (not_le.mp hd)]
              omega
            · rw [cumPos_cons_succ, if_pos (not_le.mp hd)]
              omega
          · rintro ⟨dd, h1, h2, h3, h4⟩
            rw [cumPos_cons_succ, if_pos (not_le.mp hd)] at h3 h4
            have := (ih (r - d.weight) i' hr').mpr
              ⟨dd, by simpa using h1, h2, by omega, by omega⟩
            rw [this]
            rfl

theorem pickWalk_eq_selIdx (dests : List WeightedDestination) (r acc : Int) :
    pickWalk dests r acc =
      (selIdx dests (r - acc)).bind (fun i => dests[i]?.map (·.targetURI)) := by
  induction dests generalizing acc with
  | nil => simp [pickWalk, selIdx]
  | cons d rest ih =>
    by_cases hd : d.weight ≤ 0
    · simp only [pickWalk, selIdx, if_pos hd]
      rw [ih acc]
      cases hsel : selIdx rest (r - acc) with
      | none => simp
      | some j => simp
    · by_cases hlt : r < acc + d.weight
      · have hlt' : r - acc < d.weight := by omega
        simp [pickWalk, selIdx, if_neg hd, if_pos hlt, if_pos hlt']
      · have hlt' : ¬ r - acc < d.weight := by omega
        simp only [pickWalk, selIdx, if_neg hd, if_neg hlt, if_neg hlt']
        rw [ih (acc + d.weight)]
        have heq : r - (acc + d.weight) = r - acc - d.weight := by ring
        rw [heq]
        cases hsel : selIdx rest (r - acc - d.weight) with
        | none => simp
        | some j => simp

end Routing

namespace Routing

theorem selIdx_count (dests : List WeightedDestination) (i : Nat)
    (dd : WeightedDestination) (hget : dests[i]? = some dd) (hw : 0 < dd.weight) :
    ((Finset.range (sumPosWeights dests).toNat).filter
      (fun r : Nat => selIdx dests (r : Int) = some i)).card = dd.weight.toNat := by
  have hlen : i < dests.length := (List.getElem?_eq_some_iff.mp hget).1
  have hsucc := cumPos_succ_get dests i dd hget
  rw [if_pos hw] at hsucc
  have hlo := cumPos_nonneg dests i
  have hhiW : cumPos dests (i + 1) ≤ sumPosWeights dests := by
    rw [← cumPos_length]
    exact cumPos_mono dests (i + 1) dests.length hlen
  have hkey : ∀ r : Nat, (selIdx dests (r : Int) = some i) ↔
      (cumPos dests i ≤ (r : Int) ∧ (r : Int) < cumPos dests (i + 1)) := by
    intro r
    rw [selIdx_iff dests (r : Int) i (Int.natCast_nonneg r)]
    constructor
    · rintro ⟨dd', h1, h2, h3, h4⟩
      exact ⟨h3, h4⟩
    · rintro ⟨h3, h4⟩
      exact ⟨dd, hget, hw, h3, h4⟩
  have hset : (Finset.range (sumPosWeights dests).toNat).filter
      (fun r : Nat => selIdx dests (r : Int) = some i) =
      Finset.Ico (cumPos dests i).toNat (cumPos dests (i + 1)).toNat := by
    apply Finset.ext
    intro r
    simp only [Finset.mem_filter, Finset.mem_range, Finset.mem_Ico]
    rw [hkey r]
    omega
  rw [hset, Nat.card_Ico]
  omega

theorem pickWalk_singleton (dests : List WeightedDestination) (d0 : WeightedDestination)
    (hfilt : dests.filter (fun d => 0 < d.weight) = [d0]) (r acc : Int)
    (hacc : acc ≤ r) (hlt : r < acc + d0.weight) :
    pickWalk dests r acc = some d0.targetURI := by
  induction dests generalizing acc with
  | nil => simp at hfilt
  | cons d rest ih =>
    by_cases hd : d.weight ≤ 0
    · have hf : rest.filter (fun d => 0 < d.weight) = [d0] := by
        have hnp : ¬ 0 < d.weight := not_lt.mpr hd
        simpa [List.filter_cons, hnp] using hfilt
      simp only [pickWalk, if_pos hd]
      exact ih hf acc hacc hlt
    · have hp : 0 < d.weight := not_le.mp hd
      have hcons : d = d0 ∧ rest.filter (fun d => 0 < d.weight) = [] := by
        have h' := hfilt
        simp only [List.filter_cons, hp, decide_eq_true_eq, if_pos] at h'
        rw [List.cons.injEq] at h'
        exact h'
      obtain ⟨hdd, -⟩ := hcons
      subst hdd
      simp only [pickWalk, if_neg hd, if_pos hlt]

end Routing

namespace Routing

/-- C6: pickDestination discards non-positive weights (all-non-positive lists
give no eligible destination); the walk equals an index-level selection whose
index is characterized by the cumulative-weight interval containing the drawn
r (the first in-order positive-weight destination whose cumulative weight
strictly exceeds r); each positive-weight destination is selected for exactly
weight-many values of r in [0, W); and a list with exactly one positive-weight
destination always yields that destination. -/
theorem pickDestination_weighted :
    (∀ (intn : Nat → Nat) (dests : List WeightedDestination),
      (∀ d ∈ dests, d.weight ≤ 0) → pickDestination intn dests = none) ∧
    (∀ (dests : List WeightedDestination) (r : Int),
      pickWalk dests r 0 = (selIdx dests r).bind (fun i => dests[i]?.map (·.targetURI))) ∧
    (∀ (intn : Nat → Nat) (dests : List WeightedDestination),
      0 < sumPosWeights dests →
      pickDestination intn dests =
        pickWalk dests ((intn (sumPosWeights dests).toNat : Nat) : Int) 0) ∧
    (∀ (dests : List WeightedDestination) (r : Int) (i : Nat), 0 ≤ r →
      (selIdx dests r = some i ↔
        ∃ dd, dests[i]? = some dd ∧ 0 < dd.weight ∧
          cumPos dests i ≤ r ∧ r < cumPos dests (i + 1))) ∧
    (∀ (dests : List WeightedDestination) (i : Nat) (dd : WeightedDestination),
      dests[i]? = some dd → 0 < dd.weight →
      ((Finset.range (sumPosWeights dests).toNat).filter
        (fun r : Nat => selIdx dests (r : Int) = some i)).card = dd.weight.toNat) ∧
    (∀ (intn : Nat → Nat) (dests : List WeightedDestination) (d0 : WeightedDestination),
      (∀ n, 0 < n → intn n < n) →
      dests.filter (fun d => 0 < d.weight) = [d0] →
      pickDestination intn dests = some d0.targetURI) := by
  refine ⟨?_, ?_, ?_, ?_, ?_, ?_⟩
  · intro intn dests hall
    have hnil : dests.filter (fun d => 0 < d.weight) = [] := by
      rw [List.filter_eq_nil_iff]
      intro a ha
      simp only [decide_eq_true_eq, not_lt]
      exact hall a ha
    have htot : sumPosWeights dests ≤ 0 := by
      rw [sumPos_eq, hnil]
      simp
    simp [pickDestination, htot]
  · intro dests r
    simpa using pickWalk_eq_selIdx dests r 0
  · intro intn dests hpos
    simp [pickDestination, not_le.mpr hpos]
  · intro dests r i hr
    exact selIdx_iff dests r i hr
  · intro dests i dd hget hw
    exact selIdx_count dests i dd hget hw
  · intro intn dests d0 hrng hfilt
    have hw : 0 < d0.weight := by
      have hmem : d0 ∈ dests.filter (fun d => 0 < d.weight) := by
        rw [hfilt]
        simp
      simpa using (List.mem_filter.mp hmem).2
    have htot : sumPosWeights dests = d0.weight := by
      rw [sumPos_eq, hfilt]
      simp
    have hpos : 0 < sumPosWeights dests := by omega
    have hrn := hrng (sumPosWeights dests).toNat (by omega)
    have hrn' : ((intn (sumPosWeights dests).toNat : Nat) : Int) <
        (((sumPosWeights dests).toNat : Nat) : Int) := by
      exact_mod_cast hrn
    have htn : (((sumPosWeights dests).toNat : Nat) : Int) = sumPosWeights dests :=
      Int.toNat_of_nonneg (le_of_lt hpos)
    have hpw := pickWalk_singleton dests d0 hfilt
      ((intn (sumPosWeights dests).toNat : Nat) : Int) 0
      (Int.natCast_nonneg _) (by omega)
    simpa [pickDestination, not_le.mpr hpos] using hpw

/-- Witness for C6 on the concrete lists [-1,0], [1,3] and [-5,2]. -/
theorem pickDestination_weighted_witness :
    pickDestination (fun _ => 0) destsAllNegFix = none ∧
    pickWalk destsABFix 2 0 =
      (selIdx destsABFix 2).bind (fun i => destsABFix[i]?.map (·.targetURI)) ∧
    pickDestination (fun _ => 2) destsABFix =
      pickWalk destsABFix
        ((((fun _ : Nat => 2) (sumPosWeights destsABFix).toNat : Nat)) : Int) 0 ∧
    (selIdx destsABFix 2 = some 1 ↔
      ∃ dd, destsABFix[1]? = some dd ∧ 0 < dd.weight ∧
        cumPos destsABFix 1 ≤ 2 ∧ (2 : Int) < cumPos destsABFix (1 + 1)) ∧
    ((Finset.range (sumPosWeights destsABFix).toNat).filter
      (fun r : Nat => selIdx destsABFix (r : Int) = some 1)).card =
        (⟨"b", 3⟩ : WeightedDestination).weight.toNat ∧
    pickDestination (fun _ => 0) destsSingleFix =
      some (⟨"y", 2⟩ : WeightedDestination).targetURI :=
  ⟨pickDestination_weighted.1 (fun _ => 0) destsAllNegFix (by decide),
   pickDestination_weighted.2.1 destsABFix 2,
   pickDestination_weighted.2.2.1 (fun _ : Nat => 2) destsABFix (by decide),
   pickDestination_weighted.2.2.2.1 destsABFix 2 1 (by decide),
   pickDestination_weighted.2.2.2.2.1 destsABFix 1 ⟨"b", 3⟩ (by decide) (by decide),
   pickDestination_weighted.2.2.2.2.2 (fun _ => 0) destsSingleFix ⟨"y", 2⟩
     (fun _ hn => hn) (by decide)⟩

end Routing
